import Mathlib

/-!
Formal model of the card-drafting game engine.

The definitions below are a shallow embedding of the TypeScript sources:
  - src/app/types.ts             (data model)
  - src/app/game-logic/card-actions.ts
  - src/app/game-logic/game-state.ts   (incl. the card generator)
  - src/app/game-logic/innate-actions.ts
  - src/app/components/game.tsx  (the component-local engine functions)
  - the achievements module (generateAchievements)

JavaScript objects keyed by resource type are modelled as association
lists `List (ResourceType × Int)` so that `Object.entries` iteration,
key-presence checks (`resources[t] >= n` is false when the key is
absent) and key creation on assignment are all reproduced.  JavaScript
numbers that the engine only ever adds/subtracts are modelled as `Int`.
`Math.random()`-driven choices are modelled by explicit oracle
parameters (`Nat → Nat`, used modulo the live range, or record fields
holding each decision), so every theorem quantifies over all possible
random outcomes.
-/

/-- types.ts:9 — the fixed closed set of 10 resource kinds. -/
inductive ResourceType where
  | wood | brick | stone | wheat | sheep | iron | gold | gem | fish | oil
deriving DecidableEq, Repr

/-- A JavaScript object mapping resource types to numbers, as an
association list in key-insertion order. -/
abbrev ResMap := List (ResourceType × Int)

/-- Reading `m[t]`: `some v` when the key is present, `none` when the
access would yield `undefined`. -/
def lookupRes (m : ResMap) (t : ResourceType) : Option Int :=
  (m.find? (fun p => p.1 == t)).map (fun p => p.2)

/-- Reading `m[t] || 0` (the engine's defaulting read). -/
def getOr0 (m : ResMap) (t : ResourceType) : Int :=
  (lookupRes m t).getD 0

/-- Writing `m[t] = v`: overwrites every occurrence of an existing key,
appends a fresh key at the end (JS assignment semantics). -/
def setRes (m : ResMap) (t : ResourceType) (v : Int) : ResMap :=
  if m.any (fun p => p.1 == t) then
    m.map (fun p => if p.1 == t then (t, v) else p)
  else
    m ++ [(t, v)]

/-- types.ts:68 — the only card-attached innate action the program ever
constructs is the tier-2 "Bonus Action" (+1 action point); its effect is
applied by `applyCardRewards`. -/
structure CardBonusAction where
  name : String
  description : String
deriving DecidableEq, Repr

/-- types.ts:62 — a card's reward block.  `isFactory?: boolean` defaults
to absent, i.e. `false`. -/
structure CardReward where
  resources : ResMap
  victoryPoints : Int
  innateAction : Option CardBonusAction
  isFactory : Bool
deriving DecidableEq, Repr

/-- types.ts:52 — a game card. -/
structure GameCard where
  id : Nat
  name : String
  suit : Option Nat
  cost : ResMap
  reward : CardReward
  lastOwnerId : Option Nat
deriving DecidableEq, Repr

/-- types.ts:153 — a player. -/
structure PlayerState where
  id : Nat
  hand : List GameCard
  playedCards : List GameCard
  resources : ResMap
  factories : ResMap
  victoryPoints : Int
  actionPoints : Int
  achievementPoints : Int
  color : String
deriving DecidableEq, Repr

/-- types.ts:101 — the cost of an innate action. -/
inductive CostType where
  | resource | card | factory | actionPoints
deriving DecidableEq, Repr

structure ActionCost where
  type : CostType
  amount : Int
  resourceType : Option ResourceType
deriving DecidableEq, Repr

/-- innate-actions.ts — the generators close over randomized parameters;
each closure is modelled as a data record (one constructor per
generator) holding exactly the values the closure captures, and is run
by `runEffect` below. -/
inductive EffectSpec where
  | draw (drawCount : Nat)
  | discard (discardCount : Nat) (resourceCount : Int) (resourceType : ResourceType)
  | burn (burnCount : Nat) (vpGain : Int)
  | swapCards (swapCount : Nat)
  | convert (sourceResourceType targetResourceType : ResourceType)
      (sourceAmount targetAmount : Int)
  | buildFactory (resourceType : ResourceType)
  | exchange (giveIsResource receiveIsResource : Bool)
      (giveAmount receiveAmount : Int)
      (giveResourceType receiveResourceType : Option ResourceType)
deriving DecidableEq, Repr

/-- types.ts:127 — an innate action; the `effect` closure is the
`EffectSpec` record. -/
structure InnateAction where
  id : Nat
  type : String
  name : String
  description : String
  cost : ActionCost
  effect : EffectSpec
deriving DecidableEq, Repr

/-- The achievements module builds five fixed projects; their
`isCompleted` closures are modelled by this tag, evaluated by
`isCompletedEval`. -/
inductive ProjectKind where
  | playSixCards | threeUniqueSuits | tenStone | threeWoodFactories | discardEight
deriving DecidableEq, Repr

/-- types.ts:203 — a project. -/
structure Project where
  id : Nat
  description : String
  kind : ProjectKind
  claimed : Bool
  claimedBy : Option Nat
deriving DecidableEq, Repr

/-- The achievements module builds five fixed awards; their `evaluate`
closures are modelled by this tag, evaluated by `evaluateAward`. -/
inductive AwardKind where
  | biggestHand | mostSingleSuit | mostResources | mostFactories | mostPlayedCards
deriving DecidableEq, Repr

/-- types.ts:220 — an award. -/
structure Award where
  id : Nat
  description : String
  kind : AwardKind
  sponsored : Bool
  sponsoredBy : Option Nat
deriving DecidableEq, Repr

inductive SponsorCostType where
  | discard | resource | factory
deriving DecidableEq, Repr

/-- types.ts:243 — the active sponsorship cost. -/
structure SponsorCost where
  type : SponsorCostType
  amount : Int
  resourceType : Option ResourceType
deriving DecidableEq, Repr

/-- types.ts:237 — achievement tracking. -/
structure Achievement where
  projects : List Project
  awards : List Award
  sponsorCost : SponsorCost
  claimedProjects : Nat
  sponsoredAwards : Nat
deriving DecidableEq, Repr

/-- types.ts:178 — the game state. -/
structure GameState where
  cardPool : List GameCard
  players : List PlayerState
  currentPlayer : Nat
  round : Nat
  innateActions : List InnateAction
  winner : Option Nat
  achievements : Achievement
deriving DecidableEq, Repr

/-- types.ts:265 — the game configuration. -/
structure GameConfig where
  resourceTypes : Nat
  players : Nat
  suits : Nat
  totalCards : Nat
  startingHand : Nat
  innateActionCount : Nat
  actionPointsPerTurn : Int
  drawCardCount : Nat
  discardCardCount : Nat
  discardChoice : Bool
deriving DecidableEq, Repr

/-- A throwaway card used as the default of in-range `getD` reads (the
index is always in range where it is used). -/
def dummyCard : GameCard :=
  { id := 0, name := "", suit := none, cost := [],
    reward := { resources := [], victoryPoints := 0, innateAction := none,
                isFactory := false },
    lastOwnerId := none }

/-- `Object.entries(entries).forEach(([t, a]) => m[t] -= a)` — the
deduction loop of `playCard`.  (The sites running it have already
checked affordability, so every key is present and the `getOr0` read
equals the JS read.) -/
def deductEntries (m : ResMap) (entries : ResMap) : ResMap :=
  entries.foldl (fun acc p => setRes acc p.1 (getOr0 acc p.1 - p.2)) m

/-- `Object.entries(entries).forEach(([t, a]) => m[t] = (m[t] || 0) + a)`
— the reward-application loop. -/
def addEntries (m : ResMap) (entries : ResMap) : ResMap :=
  entries.foldl (fun acc p => setRes acc p.1 (getOr0 acc p.1 + p.2)) m

/-- card-actions.ts:20 — `Object.entries(cost).every(([t, a]) =>
resources[t] >= (a || 0))`; an absent key reads `undefined` and the
comparison is false. -/
def canAffordCost (resources : ResMap) (cost : ResMap) : Bool :=
  cost.all (fun p =>
    match lookupRes resources p.1 with
    | some v => decide (p.2 ≤ v)
    | none => false)

namespace CardActions

/-- card-actions.ts:68 `applyCardRewards` — rewards go to factories when
`reward.isFactory`, otherwise to resources; then victory points are
added, one action point is deducted, and the card's bonus innate action
(the only one the generator builds adds one action point) is applied. -/
def applyCardRewards (player : PlayerState) (card : GameCard) : PlayerState :=
  let p1 :=
    if card.reward.isFactory then
      { player with factories := addEntries player.factories card.reward.resources }
    else
      { player with resources := addEntries player.resources card.reward.resources }
  let p2 := { p1 with victoryPoints := p1.victoryPoints + card.reward.victoryPoints,
                      actionPoints := p1.actionPoints - 1 }
  match card.reward.innateAction with
  | some _ => { p2 with actionPoints := p2.actionPoints + 1 }
  | none => p2

/-- card-actions.ts:9 `playCard`. -/
def playCard (gameState : GameState) (cardId : Nat) : GameState :=
  match gameState.players.get? gameState.currentPlayer with
  | none => gameState
  | some currentPlayer =>
    match currentPlayer.hand.find? (fun c => c.id == cardId) with
    | none => gameState
    | some cardToPlay =>
      if currentPlayer.actionPoints ≤ 0 then gameState
      else if ¬ canAffordCost currentPlayer.resources cardToPlay.cost then gameState
      else
        let p1 := { currentPlayer with
          hand := currentPlayer.hand.filter (fun c => c.id != cardId),
          playedCards := currentPlayer.playedCards ++ [cardToPlay] }
        let p2 := { p1 with resources := deductEntries p1.resources cardToPlay.cost }
        let p3 := applyCardRewards p2 cardToPlay
        let updatedPlayers := gameState.players.map (fun p => if p.id == p3.id then p3 else p)
        if 10 ≤ p3.victoryPoints + p3.achievementPoints then
          { gameState with players := updatedPlayers, winner := some p3.id }
        else
          { gameState with players := updatedPlayers }

/-- card-actions.ts:106 `discardCard`. -/
def discardCard (gameState : GameState) (cardId : Nat) : GameState :=
  match gameState.players.get? gameState.currentPlayer with
  | none => gameState
  | some currentPlayer =>
    match currentPlayer.hand.findIdx? (fun c => c.id == cardId) with
    | none => gameState
    | some cardIndex =>
      let discardedCard := currentPlayer.hand.getD cardIndex dummyCard
      let stamped := { discardedCard with lastOwnerId := some currentPlayer.id }
      let updatedPlayer := { currentPlayer with hand := currentPlayer.hand.eraseIdx cardIndex }
      let updatedPlayers :=
        gameState.players.map (fun p => if p.id == updatedPlayer.id then updatedPlayer else p)
      { gameState with
        cardPool := gameState.cardPool ++ [stamped],
        players := updatedPlayers }

/-- The draw loop of card-actions.ts:151 (also the body of the draw
innate effect): `drawCount` iterations, each moving a random pool card
into the hand while the pool is non-empty.  `r i % len` models
`Math.floor(Math.random() * len)`.  Returns (pool, hand, drawn). -/
def drawLoop (r : Nat → Nat) :
    Nat → Nat → List GameCard → List GameCard → List GameCard →
    List GameCard × List GameCard × List GameCard
  | 0, _, pool, hand, drawn => (pool, hand, drawn)
  | n + 1, i, pool, hand, drawn =>
    if 0 < pool.length then
      let idx := r i % pool.length
      let c := pool.getD idx dummyCard
      drawLoop r n (i + 1) (pool.eraseIdx idx) (hand ++ [c]) (drawn ++ [c])
    else
      drawLoop r n (i + 1) pool hand drawn

/-- card-actions.ts:137 `drawCards`. -/
def drawCards (gameState : GameState) (drawCount : Nat) (r : Nat → Nat) :
    GameState × List GameCard :=
  if gameState.cardPool.length = 0 then (gameState, [])
  else
    match gameState.players.get? gameState.currentPlayer with
    | none => (gameState, [])
    | some currentPlayer =>
      let res := drawLoop r drawCount 0 gameState.cardPool currentPlayer.hand []
      let updatedPlayer := { currentPlayer with
        hand := res.2.1,
        actionPoints := currentPlayer.actionPoints - 1 }
      let updatedPlayers :=
        gameState.players.map (fun p => if p.id == updatedPlayer.id then updatedPlayer else p)
      ({ gameState with cardPool := res.1, players := updatedPlayers }, res.2.2)

end CardActions

/-- A throwaway player used as the default of in-range `getD` reads. -/
def dummyPlayer : PlayerState :=
  { id := 0, hand := [], playedCards := [], resources := [], factories := [],
    victoryPoints := 0, actionPoints := 0, achievementPoints := 0, color := "" }

def dummyProject : Project :=
  { id := 0, description := "", kind := ProjectKind.playSixCards,
    claimed := false, claimedBy := none }

def dummyAward : Award :=
  { id := 0, description := "", kind := AwardKind.biggestHand,
    sponsored := false, sponsoredBy := none }

namespace GameStateTS

/-- game-state.ts:115-126 — one player's factory production:
`resources = fromEntries(entries(resources).map(([t, n]) =>
[t, n + (factories[t] || 0)]))`. -/
def produce (player : PlayerState) : PlayerState :=
  { player with
    resources := player.resources.map (fun p => (p.1, p.2 + getOr0 player.factories p.1)) }

/-- game-state.ts:100 `nextTurn` — factory production only when the turn
wraps back to player 0. -/
def nextTurn (gameState : GameState) (config : GameConfig) : GameState :=
  let nextPlayer := (gameState.currentPlayer + 1) % config.players
  let nextRound := if nextPlayer = 0 then gameState.round + 1 else gameState.round
  let updatedPlayers := gameState.players.mapIdx (fun index player =>
    if index = nextPlayer then { player with actionPoints := config.actionPointsPerTurn }
    else player)
  let updatedPlayers2 :=
    if nextPlayer = 0 then updatedPlayers.map produce else updatedPlayers
  { gameState with
    players := updatedPlayers2, currentPlayer := nextPlayer, round := nextRound }

end GameStateTS

namespace CardGenerator

/-- The outcomes of the `Math.random()` calls one `generateCardForTier`
invocation makes, as explicit data: rolls are reduced modulo the live
range at the call site, probability tests become the `Bool` they
produce. -/
structure CardRand where
  suitRoll : Nat
  costWeightRoll : Nat
  costPick : Nat → Nat
  rewardWeightRoll : Nat
  vpHappens : Bool
  vpRoll : Nat
  bonusHappens : Bool
  rewardPick : Nat → Nat
  factoryHappens : Bool
  factoryPick : Nat
  factoryLow : Bool

/-- The unit-distribution loops of the generator: `n` times, pick a
uniformly random active type and add 1 to its map entry. -/
def distributeUnits (pick : Nat → Nat) (resourceTypes : List ResourceType)
    (n : Nat) (m : ResMap) : ResMap :=
  (List.range n).foldl (fun acc i =>
    let t := resourceTypes.getD (pick i % resourceTypes.length) ResourceType.wood
    setRes acc t (getOr0 acc t + 1)) m

/-- card-generator `generateCardForTier` (game-state.ts dump lines
144-214). -/
def generateCardForTier (tier : Nat) (id : Nat) (config : GameConfig)
    (resourceTypes : List ResourceType) (r : CardRand) : GameCard :=
  let suit := if 0 < config.suits then some (r.suitRoll % config.suits) else none
  let costLo : Nat := if tier = 0 then 0 else if tier = 1 then 3 else 12
  let costSpan : Nat := if tier = 0 then 3 else 9
  let totalCost : Nat := r.costWeightRoll % costSpan + costLo
  let cost := distributeUnits r.costPick resourceTypes totalCost []
  let rewardLo : Nat := if tier = 0 then 1 else if tier = 1 then 4 else 8
  let rewardSpan : Nat := if tier = 0 then 5 else if tier = 1 then 7 else 8
  let totalReward0 : Int := (r.rewardWeightRoll % rewardSpan + rewardLo : Nat)
  let maxVP : Nat := if tier = 0 then 1 else if tier = 1 then 3 else 5
  let victoryPoints : Int := if r.vpHappens then ((r.vpRoll % maxVP + 1 : Nat) : Int) else 0
  let totalReward1 : Int :=
    if r.vpHappens then max 0 (totalReward0 - victoryPoints * 2) else totalReward0
  let hasBonus := tier = 2 ∧ r.bonusHappens ∧ victoryPoints = 0
  let innateAction :=
    if hasBonus then
      some { name := "Bonus Action",
             description := "Gain an extra action point this turn" }
    else none
  let totalReward2 : Int := if hasBonus then max 0 (totalReward1 - 3) else totalReward1
  let rewardRes0 :=
    if 0 < totalReward2 then distributeUnits r.rewardPick resourceTypes totalReward2.toNat []
    else []
  let hasFactory := 0 < tier ∧ r.factoryHappens
  let rewardRes :=
    if hasFactory then
      let factoryType := resourceTypes.getD (r.factoryPick % resourceTypes.length) ResourceType.wood
      let factoryAmount : Int := if tier = 1 then 1 else if r.factoryLow then 2 else 3
      setRes rewardRes0 factoryType factoryAmount
    else rewardRes0
  { id := id,
    name := "Tier " ++ toString tier ++ " Card " ++ toString (id + 1),
    suit := suit,
    cost := cost,
    reward := { resources := rewardRes, victoryPoints := victoryPoints,
                innateAction := innateAction, isFactory := hasFactory },
    lastOwnerId := none }

/-- card-generator `generateCards` (game-state.ts dump lines 221-238):
`floor(totalCards/3)` cards per tier, leftovers generated as tier 2 with
ids continuing from `cards.length = 3 * cardsPerTier`. -/
def generateCards (config : GameConfig) (resourceTypes : List ResourceType)
    (R : Nat → CardRand) : List GameCard :=
  let cardsPerTier := config.totalCards / 3
  let tiered := (List.range 3).flatMap (fun tier =>
    (List.range cardsPerTier).map (fun i =>
      generateCardForTier tier (tier * cardsPerTier + i) config resourceTypes
        (R (tier * cardsPerTier + i))))
  tiered ++
    (List.range' (3 * cardsPerTier) (config.totalCards - 3 * cardsPerTier)).map
      (fun i => generateCardForTier 2 i config resourceTypes (R i))

/-- The tier slot `generateCards` assigns to card index `i` (statement
helper for comparing against the generated list). -/
def cardTier (totalCards i : Nat) : Nat :=
  if i < totalCards / 3 then 0
  else if i < 2 * (totalCards / 3) then 1
  else 2

end CardGenerator

namespace Achievements

/-- The five fixed projects' `isCompleted` closures (achievements
module), dispatched on the tag. -/
def isCompletedEval : ProjectKind → PlayerState → GameState → Bool
  | ProjectKind.playSixCards, player, _ =>
    decide (6 ≤ player.playedCards.length)
  | ProjectKind.threeUniqueSuits, player, _ =>
    decide (3 ≤ (player.playedCards.map (fun c => c.suit)).dedup.length)
  | ProjectKind.tenStone, player, _ =>
    match lookupRes player.resources ResourceType.stone with
    | some v => decide (10 ≤ v)
    | none => false
  | ProjectKind.threeWoodFactories, player, _ =>
    match lookupRes player.factories ResourceType.wood with
    | some v => decide (3 ≤ v)
    | none => false
  | ProjectKind.discardEight, player, gameState =>
    decide (8 ≤ (gameState.cardPool.filter
      (fun c => c.lastOwnerId == some player.id)).length)

/-- `c.suit ?? -1` in the max-suit award. -/
def suitVal (c : GameCard) : Int :=
  match c.suit with
  | some s => (s : Int)
  | none => -1

/-- `Math.max(...cards.map((c) => c.suit ?? -1))`: the spread of an
empty array yields `-Infinity`, modelled as `⊥` in `WithBot Int`. -/
def maxSuitVal (p : PlayerState) : WithBot Int :=
  (p.playedCards.map suitVal).foldl (fun m v => max m (v : WithBot Int)) ⊥

/-- The quantity each award's `evaluate` closure compares. -/
def awardMeasure : AwardKind → PlayerState → WithBot Int
  | AwardKind.biggestHand, p => ((p.hand.length : Int) : WithBot Int)
  | AwardKind.mostSingleSuit, p => maxSuitVal p
  | AwardKind.mostResources, p => (((p.resources.map (fun q => q.2)).sum : Int) : WithBot Int)
  | AwardKind.mostFactories, p => (((p.factories.map (fun q => q.2)).sum : Int) : WithBot Int)
  | AwardKind.mostPlayedCards, p => ((p.playedCards.length : Int) : WithBot Int)

/-- `players.reduce((a, b) => f(a) > f(b) ? a : b)` with the running
element's position tracked, so that the final `players.indexOf(...)`
(which compares by object identity) is the tracked index. -/
def reduceKeepLater {α W : Type} [LinearOrder W] (f : α → W)
    (acc : Nat × α) (l : List (Nat × α)) : Nat × α :=
  l.foldl (fun a b => if f b.2 < f a.2 then a else b) acc

/-- An award's `evaluate`: `players.indexOf(players.reduce(...))`.
JavaScript `reduce` without an initial value throws on an empty list,
so the empty case is `none`. -/
def evaluateAward (kind : AwardKind) (players : List PlayerState) : Option Nat :=
  match players with
  | [] => none
  | x :: xs => some (reduceKeepLater (awardMeasure kind) (0, x) (xs.enumFrom 1)).1

/-- The achievements module's fixed project list. -/
def initialProjects : List Project :=
  [ { id := 1, description := "First player to play 6 cards",
      kind := ProjectKind.playSixCards, claimed := false, claimedBy := none },
    { id := 2, description := "First player to play 3 unique suits",
      kind := ProjectKind.threeUniqueSuits, claimed := false, claimedBy := none },
    { id := 3, description := "First player to accumulate 10 stone",
      kind := ProjectKind.tenStone, claimed := false, claimedBy := none },
    { id := 4, description := "First player to reach 3 wood factories",
      kind := ProjectKind.threeWoodFactories, claimed := false, claimedBy := none },
    { id := 5, description := "First player to discard 8 cards",
      kind := ProjectKind.discardEight, claimed := false, claimedBy := none } ]

/-- The achievements module's fixed award list. -/
def initialAwards : List Award :=
  [ { id := 1, description := "Player with bigger hand than any other player",
      kind := AwardKind.biggestHand, sponsored := false, sponsoredBy := none },
    { id := 2, description := "Player with most of a single suit than any other",
      kind := AwardKind.mostSingleSuit, sponsored := false, sponsoredBy := none },
    { id := 3, description := "Player with the most resources total",
      kind := AwardKind.mostResources, sponsored := false, sponsoredBy := none },
    { id := 4, description := "Player with the most factories",
      kind := AwardKind.mostFactories, sponsored := false, sponsoredBy := none },
    { id := 5, description := "Player with the most played cards",
      kind := AwardKind.mostPlayedCards, sponsored := false, sponsoredBy := none } ]

/-- The eight fixed sponsorship-cost options. -/
def sponsorCosts : List SponsorCost :=
  [ { type := SponsorCostType.resource, amount := 10, resourceType := some ResourceType.wood },
    { type := SponsorCostType.resource, amount := 8, resourceType := some ResourceType.stone },
    { type := SponsorCostType.resource, amount := 6, resourceType := some ResourceType.brick },
    { type := SponsorCostType.factory, amount := 3, resourceType := some ResourceType.wood },
    { type := SponsorCostType.factory, amount := 2, resourceType := some ResourceType.stone },
    { type := SponsorCostType.factory, amount := 2, resourceType := some ResourceType.brick },
    { type := SponsorCostType.discard, amount := 3, resourceType := none },
    { type := SponsorCostType.discard, amount := 4, resourceType := none } ]

/-- `generateAchievements` with the sponsorship-cost roll explicit. -/
def generateAchievements (costRoll : Nat) : Achievement :=
  { projects := initialProjects,
    awards := initialAwards,
    sponsorCost := sponsorCosts.getD (costRoll % 8)
      { type := SponsorCostType.discard, amount := 0, resourceType := none },
    claimedProjects := 0,
    sponsoredAwards := 0 }

end Achievements

namespace InnateActions

/-- The discard loops of the discard effect and card-giving exchange:
`n` times, splice a random card out of the hand and push it onto the
pool.  Returns (hand, pool). -/
def discardLoop (r : Nat → Nat) :
    Nat → Nat → List GameCard → List GameCard → List GameCard × List GameCard
  | 0, _, hand, pool => (hand, pool)
  | n + 1, i, hand, pool =>
    if 0 < hand.length then
      let idx := r i % hand.length
      let c := hand.getD idx dummyCard
      discardLoop r n (i + 1) (hand.eraseIdx idx) (pool ++ [c])
    else
      discardLoop r n (i + 1) hand pool

/-- The removal loops of the burn effect (and of the sponsorship discard
cost): cards are spliced out of the hand and not returned to the pool. -/
def burnLoop (r : Nat → Nat) : Nat → Nat → List GameCard → List GameCard
  | 0, _, hand => hand
  | n + 1, i, hand =>
    if 0 < hand.length then
      burnLoop r n (i + 1) (hand.eraseIdx (r i % hand.length))
    else
      burnLoop r n (i + 1) hand

/-- The swap loop between two distinct players' hands; iteration `i`
uses rolls `r (2*i)` and `r (2*i+1)`. -/
def swapLoop (r : Nat → Nat) :
    Nat → Nat → List GameCard → List GameCard → List GameCard × List GameCard
  | 0, _, h1, h2 => (h1, h2)
  | n + 1, i, h1, h2 =>
    if 0 < h1.length ∧ 0 < h2.length then
      let i1 := r (2 * i) % h1.length
      let i2 := r (2 * i + 1) % h2.length
      let c1 := h1.getD i1 dummyCard
      let c2 := h2.getD i2 dummyCard
      swapLoop r n (i + 1) (h1.set i1 c2) (h2.set i2 c1)
    else
      swapLoop r n (i + 1) h1 h2

/-- The swap loop when the game has a single player: `currentPlayer` and
`nextPlayer` are two shallow copies sharing one hand array, so the swap
happens within that one array
(`temp = h[i1]; h[i1] = h[i2]; h[i2] = temp`). -/
def swapLoopSelf (r : Nat → Nat) : Nat → Nat → List GameCard → List GameCard
  | 0, _, h => h
  | n + 1, i, h =>
    if 0 < h.length then
      let i1 := r (2 * i) % h.length
      let i2 := r (2 * i + 1) % h.length
      let c1 := h.getD i1 dummyCard
      let c2 := h.getD i2 dummyCard
      swapLoopSelf r n (i + 1) ((h.set i1 c2).set i2 c1)
    else
      swapLoopSelf r n (i + 1) h

/-- innate-actions.ts — runs a generated effect closure.  Each branch
mirrors the body of the corresponding generator's `effect`, with the
output values of the returned (player, gameState) pair computed
directly (the closures build them through shallow copies and in-place
array mutation; the in-place effects on the caller's `prev.players`
elements are discarded by `performInnateAction`'s id-match replacement,
see there). -/
def runEffect (spec : EffectSpec) (r : Nat → Nat)
    (player : PlayerState) (gameState : GameState) : PlayerState × GameState :=
  match spec with
  | EffectSpec.draw drawCount =>
    let res := CardActions.drawLoop r drawCount 0 gameState.cardPool player.hand []
    ({ player with hand := res.2.1 }, { gameState with cardPool := res.1 })
  | EffectSpec.discard discardCount resourceCount resourceType =>
    let res := discardLoop r discardCount 0 player.hand gameState.cardPool
    ({ player with
        hand := res.1,
        resources := setRes player.resources resourceType
          (getOr0 player.resources resourceType + resourceCount) },
     { gameState with cardPool := res.2 })
  | EffectSpec.burn burnCount vpGain =>
    ({ player with
        hand := burnLoop r burnCount 0 player.hand,
        victoryPoints := player.victoryPoints + vpGain },
     gameState)
  | EffectSpec.swapCards swapCount =>
    let cpi := gameState.players.findIdx (fun p => p.id == player.id)
    if cpi < gameState.players.length then
      let npi := (cpi + 1) % gameState.players.length
      let p0 := gameState.players.getD cpi dummyPlayer
      if cpi = npi then
        let cur := { p0 with hand := swapLoopSelf r swapCount 0 p0.hand }
        (cur, { gameState with players := gameState.players.set cpi cur })
      else
        let q0 := gameState.players.getD npi dummyPlayer
        let res := swapLoop r swapCount 0 p0.hand q0.hand
        let cur := { p0 with hand := res.1 }
        let nxt := { q0 with hand := res.2 }
        (cur, { gameState with
          players := (gameState.players.set cpi cur).set npi nxt })
    else
      -- `findIndex` missing the acting player would make the closure
      -- crash on `undefined`; it cannot happen for a player taken from
      -- the state, so this branch is inert.
      (player, gameState)
  | EffectSpec.convert src tgt srcAmt tgtAmt =>
    match lookupRes player.resources src with
    | some v =>
      if srcAmt ≤ v then
        let m1 := setRes player.resources src (v - srcAmt)
        ({ player with resources := setRes m1 tgt (getOr0 m1 tgt + tgtAmt) }, gameState)
      else (player, gameState)
    | none => (player, gameState)
  | EffectSpec.buildFactory rt =>
    match lookupRes player.resources rt with
    | some v =>
      if 5 ≤ v then
        ({ player with
           resources := setRes player.resources rt (v - 5),
           factories := setRes player.factories rt (getOr0 player.factories rt + 1) },
         gameState)
      else (player, gameState)
    | none => (player, gameState)
  | EffectSpec.exchange giveIsRes recvIsRes giveAmt recvAmt giveRt recvRt =>
    let give :=
      if giveIsRes then
        match giveRt with
        | some rt =>
          let m := setRes player.resources rt (getOr0 player.resources rt - giveAmt)
          ({ player with resources := m }, gameState.cardPool)
        | none => (player, gameState.cardPool)
      else
        let res := discardLoop r giveAmt.toNat 0 player.hand gameState.cardPool
        ({ player with hand := res.1 }, res.2)
    let recv :=
      if recvIsRes then
        match recvRt with
        | some rt =>
          let m := setRes give.1.resources rt (getOr0 give.1.resources rt + recvAmt)
          ({ give.1 with resources := m }, give.2)
        | none => give
      else
        let res := CardActions.drawLoop r recvAmt.toNat giveAmt.toNat give.2 give.1.hand []
        ({ give.1 with hand := res.2.1 }, res.1)
    (recv.1, { gameState with cardPool := recv.2 })

end InnateActions

namespace Game

/-- game.tsx:746-759 — `performInnateAction`'s affordability switch:
resource costs require the declared `resourceType` to be present and
sufficient (a missing `resourceType`, or one absent from the player's
map, fails the check); a `factory` cost type falls to the `default`
branch and is never affordable. -/
def innateAffordable (cost : ActionCost) (player : PlayerState) : Bool :=
  match cost.type with
  | CostType.actionPoints => decide (cost.amount ≤ player.actionPoints)
  | CostType.card => decide (cost.amount ≤ (player.hand.length : Int))
  | CostType.resource =>
    match cost.resourceType with
    | none => false
    | some rt =>
      match lookupRes player.resources rt with
      | some v => decide (cost.amount ≤ v)
      | none => false
  | CostType.factory => false

/-- game.tsx:790 `nextTurn` — the component-local variant.  Unlike
`GameStateTS.nextTurn`, the factory-production map (game.tsx:801-813,
the same per-player transform as `GameStateTS.produce`) is NOT guarded
by `nextPlayer === 0`: it runs on every turn change. -/
def nextTurn (gameState : GameState) (config : GameConfig) : GameState :=
  let nextPlayer := (gameState.currentPlayer + 1) % config.players
  let nextRound := if nextPlayer = 0 then gameState.round + 1 else gameState.round
  let updatedPlayers := gameState.players.mapIdx (fun index player =>
    if index = nextPlayer then { player with actionPoints := config.actionPointsPerTurn }
    else player)
  { gameState with
    players := updatedPlayers.map GameStateTS.produce,
    currentPlayer := nextPlayer,
    round := nextRound }

/-- game.tsx:742 `performInnateAction`.  After the effect runs, the
code maps over `prev.players`; because every effect either leaves that
array object in place or writes its updated player objects into it, the
array it maps over is the one the effect returned, and the id-match
replaces the acting player's (possibly internally mutated) element with
the decremented `updatedPlayer`. -/
def performInnateAction (gameState : GameState) (action : InnateAction)
    (r : Nat → Nat) : GameState :=
  match gameState.players.get? gameState.currentPlayer with
  | none => gameState
  | some currentPlayer =>
    if innateAffordable action.cost currentPlayer then
      let eff := InnateActions.runEffect action.effect r currentPlayer gameState
      let updatedPlayer := { eff.1 with actionPoints := eff.1.actionPoints - 1 }
      let updatedPlayers :=
        eff.2.players.map (fun p => if p.id == updatedPlayer.id then updatedPlayer else p)
      -- game.tsx:775 — the win check here is on victoryPoints alone.
      if 10 ≤ updatedPlayer.victoryPoints then
        { eff.2 with players := updatedPlayers, winner := some updatedPlayer.id }
      else
        { eff.2 with players := updatedPlayers }
    else gameState

/-- game.tsx:952 `claimProject` (with the component's
`achievementClaimedThisRound` guard made an explicit argument).  Note
there is no check of the project's `isCompleted` predicate. -/
def claimProject (achievementClaimedThisRound : Bool) (gameState : GameState)
    (projectId : Nat) : GameState :=
  if achievementClaimedThisRound then gameState
  else
    match gameState.achievements.projects.findIdx? (fun p => p.id == projectId) with
    | none => gameState
    | some projectIndex =>
      let project := gameState.achievements.projects.getD projectIndex dummyProject
      if project.claimed then gameState
      else
        let updatedProjects := gameState.achievements.projects.set projectIndex
          { project with claimed := true, claimedBy := some gameState.currentPlayer }
        let claimedProjects := gameState.achievements.claimedProjects + 1
        let projectValue : Int :=
          if claimedProjects = 1 then 7 else if claimedProjects = 2 then 5 else 3
        let cp := gameState.players.getD gameState.currentPlayer dummyPlayer
        let updatedPlayers := gameState.players.set gameState.currentPlayer
          { cp with
            achievementPoints := cp.achievementPoints + projectValue,
            actionPoints := cp.actionPoints - 1 }
        { gameState with
          achievements := { gameState.achievements with
            projects := updatedProjects, claimedProjects := claimedProjects },
          players := updatedPlayers }

/-- game.tsx:988 `sponsorAward` (guard explicit, the sponsorship-cost
re-roll explicit as `rerollRoll`).  game.tsx:999-1001 marks the award
object sponsored BEFORE the cost is examined; the award objects are
shared with the input state's `awards` array (`{ ...prev.achievements }`
is a shallow copy), so on the unaffordable `return prev` paths that
mutation is still visible in the returned state, while the
`sponsoredAwards` increment — made on the shallow copy's own counter
field — is not. -/
def sponsorAward (achievementClaimedThisRound : Bool) (gameState : GameState)
    (awardId : Nat) (r : Nat → Nat) (rerollRoll : Nat) : GameState :=
  if achievementClaimedThisRound then gameState
  else
    match gameState.achievements.awards.findIdx? (fun a => a.id == awardId) with
    | none => gameState
    | some awardIndex =>
      let award := gameState.achievements.awards.getD awardIndex dummyAward
      if award.sponsored then gameState
      else if 3 ≤ gameState.achievements.sponsoredAwards then gameState
      else
        let updatedAwards := gameState.achievements.awards.set awardIndex
          { award with sponsored := true, sponsoredBy := some gameState.currentPlayer }
        let leak := { gameState with
          achievements := { gameState.achievements with awards := updatedAwards } }
        let cost := gameState.achievements.sponsorCost
        let currentPlayer := gameState.players.getD gameState.currentPlayer dummyPlayer
        let finish := fun (p : PlayerState) =>
          { gameState with
            achievements := { gameState.achievements with
              awards := updatedAwards,
              sponsoredAwards := gameState.achievements.sponsoredAwards + 1,
              sponsorCost := (Achievements.generateAchievements rerollRoll).sponsorCost },
            players := gameState.players.set gameState.currentPlayer
              { p with actionPoints := p.actionPoints - 1 } }
        match cost.type with
        | SponsorCostType.discard =>
          let newHand := InnateActions.burnLoop r cost.amount.toNat 0 currentPlayer.hand
          finish { currentPlayer with hand := newHand }
        | SponsorCostType.resource =>
          match cost.resourceType with
          | some rt =>
            (match lookupRes currentPlayer.resources rt with
             | some v =>
               if cost.amount ≤ v then
                 finish { currentPlayer with resources := setRes currentPlayer.resources rt (v - cost.amount) }
               else leak
             | none => leak)
          | none =>
            -- `cost.type === "resource" && cost.resourceType` is false:
            -- no branch pays anything, the common tail still runs.
            finish currentPlayer
        | SponsorCostType.factory =>
          match cost.resourceType with
          | some rt =>
            (match lookupRes currentPlayer.factories rt with
             | some v =>
               if cost.amount ≤ v then
                 finish { currentPlayer with factories := setRes currentPlayer.factories rt (v - cost.amount) }
               else leak
             | none => leak)
          | none => finish currentPlayer

end Game

namespace RefModel

/-- Aliasing model for the mutation analysis: JavaScript array objects
live in a heap of cells; `Heap c` is the contents of array cell `c`.
Object spreads (`{ ...player }`) copy the CELL REFERENCE held in the
`hand` field, not the array, while `[...pool]` allocates a fresh cell
with a copy of the contents. -/
def Heap := Nat → List GameCard

def writeCell (h : Heap) (c : Nat) (v : List GameCard) : Heap :=
  fun n => if n = c then v else h n

/-- A player object whose `hand` field is a reference to an array cell. -/
structure PlayerObj where
  id : Nat
  handRef : Nat

/-- The slice of GameState `drawCards` touches, with array-valued fields
as references. -/
structure StateObj where
  poolRef : Nat
  players : List PlayerObj
  currentPlayer : Nat

/-- card-actions.ts:137 `drawCards` under reference semantics:
`const updatedPlayer = { ...currentPlayer }` copies `handRef`
(card-actions.ts:146); `const updatedCardPool = [...gameState.cardPool]`
allocates the fresh cell `fresh` (line 147); the loop then pushes each
drawn card onto the hand cell — `updatedPlayer.hand.push(drawnCard)`,
line 156, mutating the array also referenced by the input state's
current player — and splices it out of the pool copy.  Returns the heap
after the call. -/
def drawCardsRef (h : Heap) (s : StateObj) (drawCount : Nat) (r : Nat → Nat)
    (fresh : Nat) : Heap :=
  if (h s.poolRef).length = 0 then h
  else
    match s.players.get? s.currentPlayer with
    | none => h
    | some currentPlayer =>
      let h1 := writeCell h fresh (h s.poolRef)
      let res := CardActions.drawLoop r drawCount 0 (h1 fresh) (h1 currentPlayer.handRef) []
      writeCell (writeCell h1 fresh res.1) currentPlayer.handRef res.2.1

/-- Concrete heap: cell 0 holds the pool (one card), cell 1 the current
player's (empty) hand. -/
def heap0 : Heap := fun n => if n = 0 then [dummyCard] else []

def state0 : StateObj :=
  { poolRef := 0, players := [{ id := 0, handRef := 1 }], currentPlayer := 0 }

end RefModel

namespace Fixtures

/-- An empty achievements block for fixtures that do not exercise it. -/
def noAch : Achievement :=
  { projects := [], awards := [],
    sponsorCost := { type := SponsorCostType.discard, amount := 0, resourceType := none },
    claimedProjects := 0, sponsoredAwards := 0 }

/-- A base in-progress state with one default player. -/
def baseState : GameState :=
  { cardPool := [], players := [dummyPlayer], currentPlayer := 0, round := 1,
    innateActions := [], winner := none, achievements := noAch }

/-- C1 counterexample input: the acting player has 5 victory points and
5 achievement points (combined 10) and one action point. -/
def playerVP5A5 : PlayerState :=
  { dummyPlayer with victoryPoints := 5, achievementPoints := 5, actionPoints := 1 }

def stateVP5A5 : GameState := { baseState with players := [playerVP5A5] }

/-- A draw innate action costing one action point (as generated by
`generateDrawAction`). -/
def drawAction : InnateAction :=
  { id := 1, type := "draw", name := "Draw 2 Cards",
    description := "Draw cards from the deck",
    cost := { type := CostType.actionPoints, amount := 1, resourceType := none },
    effect := EffectSpec.draw 2 }

/-- C4 fixture: two players, the first with one wood factory and two
wood in stock; `currentPlayer = 0`, so ending the turn moves to player 1
without wrapping. -/
def playerWithFactory : PlayerState :=
  { dummyPlayer with resources := [(ResourceType.wood, 2)],
                     factories := [(ResourceType.wood, 1)] }

def stateTwoPlayers : GameState :=
  { baseState with players := [playerWithFactory, { dummyPlayer with id := 1 }] }

def cfgTwoPlayers : GameConfig :=
  { resourceTypes := 1, players := 2, suits := 0, totalCards := 0, startingHand := 0,
    innateActionCount := 0, actionPointsPerTurn := 2, drawCardCount := 1,
    discardCardCount := 0, discardChoice := true }

/-- C5 fixture: one award, `sponsorCost` demands 10 wood, the current
player has no wood entry at 10. -/
def stateSponsorPoor : GameState :=
  { baseState with
    players := [{ dummyPlayer with resources := [(ResourceType.wood, 0)], actionPoints := 2 }],
    achievements := { noAch with
      awards := Achievements.initialAwards,
      sponsorCost := { type := SponsorCostType.resource, amount := 10,
                       resourceType := some ResourceType.wood } } }

/-- C6 fixture: the five stock projects, a current player who has played
no cards (so project 1's predicate is false). -/
def stateNoPlays : GameState :=
  { baseState with
    players := [{ dummyPlayer with actionPoints := 2 }],
    achievements := { noAch with projects := Achievements.initialProjects } }

/-- C7 counterexample input: two distinct players with equally sized
(empty) hands. -/
def tiedPlayerA : PlayerState := dummyPlayer

def tiedPlayerB : PlayerState := { dummyPlayer with id := 1 }

/-- A small card with a one-wood cost and a two-brick reward. -/
def cardWoodBrick : GameCard :=
  { id := 7, name := "c7", suit := none,
    cost := [(ResourceType.wood, 1)],
    reward := { resources := [(ResourceType.brick, 2)], victoryPoints := 1,
                innateAction := none, isFactory := false },
    lastOwnerId := none }

/-- C2 witness input: the player holds `cardWoodBrick`, can afford it,
and has one action point. -/
def stateCanPlay : GameState :=
  { baseState with
    players := [{ dummyPlayer with
      hand := [cardWoodBrick],
      resources := [(ResourceType.wood, 1)],
      actionPoints := 1 }] }

/-- C3 witness input: same hand but zero action points. -/
def stateNoAP : GameState :=
  { baseState with
    players := [{ dummyPlayer with
      hand := [cardWoodBrick],
      resources := [(ResourceType.wood, 1)],
      actionPoints := 0 }] }

/-- C10 witness input: one card in the pool, current player at zero
action points. -/
def stateOnePool : GameState :=
  { baseState with cardPool := [dummyCard] }

/-- C8 witness input. -/
def cfgFourCards : GameConfig :=
  { cfgTwoPlayers with totalCards := 4 }

def constCardRand : CardGenerator.CardRand :=
  { suitRoll := 0, costWeightRoll := 0, costPick := fun _ => 0,
    rewardWeightRoll := 0, vpHappens := false, vpRoll := 0,
    bonusHappens := false, rewardPick := fun _ => 0,
    factoryHappens := false, factoryPick := 0, factoryLow := false }

end Fixtures

/-- The total amount a JS cost/reward object assigns to type `t` (the
sum of its entries for `t`; a JS object has at most one). -/
def entriesAmt (entries : ResMap) (t : ResourceType) : Int :=
  ((entries.filter (fun p => p.1 == t)).map (fun p => p.2)).sum

/-! ### Association-map lemmas -/

theorem find?_overwrite_self (m : ResMap) (t : ResourceType) (v : Int)
    (h : m.any (fun q => q.1 == t) = true) :
    (m.map (fun q => if q.1 == t then (t, v) else q)).find? (fun q => q.1 == t)
      = some (t, v) := by
  induction m with
  | nil => simp at h
  | cons p rest ih =>
    rw [List.map_cons]
    cases hp : (p.1 == t) with
    | true =>
      rw [if_pos rfl, List.find?_cons]
      simp
    | false =>
      rw [if_neg (by simp), List.find?_cons]
      simp only [hp]
      exact ih (by simpa [List.any_cons, hp] using h)

theorem find?_overwrite_ne (m : ResMap) (t : ResourceType) (v : Int)
    (t' : ResourceType) (ht : t' ≠ t) :
    (m.map (fun q => if q.1 == t then (t, v) else q)).find? (fun q => q.1 == t')
      = m.find? (fun q => q.1 == t') := by
  induction m with
  | nil => rfl
  | cons p rest ih =>
    rw [List.map_cons]
    cases hp : (p.1 == t) with
    | true =>
      have hpt : p.1 = t := by simpa using hp
      have hne : (t == t') = false := by simp [Ne.symm ht]
      have hne2 : (p.1 == t') = false := by simp [hpt, Ne.symm ht]
      rw [if_pos rfl, List.find?_cons, List.find?_cons]
      simp only [hne, hne2]
      exact ih
    | false =>
      rw [if_neg (by simp), List.find?_cons, List.find?_cons]
      cases hq : (p.1 == t') with
      | true => simp only [hq]
      | false =>
        simp only [hq]
        exact ih

theorem lookupRes_setRes_self (m : ResMap) (t : ResourceType) (v : Int) :
    lookupRes (setRes m t v) t = some v := by
  unfold setRes
  split
  · next h => rw [lookupRes, find?_overwrite_self m t v h]; rfl
  · next h =>
    rw [lookupRes, List.find?_append]
    have hnone : m.find? (fun q => q.1 == t) = none := by
      rw [List.find?_eq_none]
      intro x hx hxt
      exact h (List.any_eq_true.mpr ⟨x, hx, hxt⟩)
    rw [hnone, List.find?_cons]
    simp

theorem lookupRes_setRes_ne (m : ResMap) (t : ResourceType) (v : Int)
    (t' : ResourceType) (ht : t' ≠ t) :
    lookupRes (setRes m t v) t' = lookupRes m t' := by
  unfold setRes
  split
  · rw [lookupRes, find?_overwrite_ne m t v t' ht, lookupRes]
  · rw [lookupRes, List.find?_append, List.find?_cons]
    have hne : (t == t') = false := by simp [Ne.symm ht]
    simp only [hne, List.find?_nil]
    rw [lookupRes]
    cases m.find? (fun q => q.1 == t') <;> rfl

theorem getOr0_setRes_self (m : ResMap) (t : ResourceType) (v : Int) :
    getOr0 (setRes m t v) t = v := by
  rw [getOr0, lookupRes_setRes_self]; rfl

theorem getOr0_setRes_ne (m : ResMap) (t : ResourceType) (v : Int)
    (t' : ResourceType) (ht : t' ≠ t) :
    getOr0 (setRes m t v) t' = getOr0 m t' := by
  rw [getOr0, lookupRes_setRes_ne m t v t' ht, getOr0]

theorem entriesAmt_nil (t : ResourceType) : entriesAmt [] t = 0 := rfl

theorem entriesAmt_cons (p : ResourceType × Int) (rest : ResMap) (t : ResourceType) :
    entriesAmt (p :: rest) t
      = (if p.1 = t then p.2 else 0) + entriesAmt rest t := by
  by_cases hp : p.1 = t
  · simp [entriesAmt, List.filter_cons, hp]
  · simp [entriesAmt, List.filter_cons, hp]

theorem getOr0_deductEntries (entries : ResMap) :
    ∀ (m : ResMap) (t : ResourceType),
      getOr0 (deductEntries m entries) t = getOr0 m t - entriesAmt entries t := by
  induction entries with
  | nil => intro m t; simp [deductEntries, entriesAmt]
  | cons p rest ih =>
    intro m t
    have hstep : deductEntries m (p :: rest)
        = deductEntries (setRes m p.1 (getOr0 m p.1 - p.2)) rest := rfl
    rw [hstep, ih, entriesAmt_cons]
    by_cases hp : p.1 = t
    · rw [← hp, getOr0_setRes_self]
      simp [hp]
      ring
    · rw [getOr0_setRes_ne _ _ _ _ (fun hh => hp hh.symm)]
      simp [hp]

theorem getOr0_addEntries (entries : ResMap) :
    ∀ (m : ResMap) (t : ResourceType),
      getOr0 (addEntries m entries) t = getOr0 m t + entriesAmt entries t := by
  induction entries with
  | nil => intro m t; simp [addEntries, entriesAmt]
  | cons p rest ih =>
    intro m t
    have hstep : addEntries m (p :: rest)
        = addEntries (setRes m p.1 (getOr0 m p.1 + p.2)) rest := rfl
    rw [hstep, ih, entriesAmt_cons]
    by_cases hp : p.1 = t
    · rw [← hp, getOr0_setRes_self]
      simp [hp]
      ring
    · rw [getOr0_setRes_ne _ _ _ _ (fun hh => hp hh.symm)]
      simp [hp]

/-! ### List helper lemmas -/

theorem getElem_cons_eraseIdx_perm {α : Type} (l : List α) (i : Nat) (h : i < l.length) :
    (l[i] :: l.eraseIdx i).Perm l := by
  rw [List.eraseIdx_eq_take_drop_succ]
  have h1 : (l[i] :: (List.take i l ++ List.drop (i + 1) l)).Perm
      (List.take i l ++ (l[i] :: List.drop (i + 1) l)) := List.perm_middle.symm
  rw [List.getElem_cons_drop, List.take_append_drop] at h1
  exact h1

theorem getD_eq_getElem_of_lt {α : Type} (l : List α) (i : Nat) (d : α)
    (h : i < l.length) : l.getD i d = l[i] := by
  rw [List.getD_eq_getElem?_getD, List.getElem?_eq_getElem h]
  rfl

/-- Full characterisation of the random-draw loop: the drawn cards are
appended to both the accumulator and the hand, exactly
`min n pool.length` cards are drawn, and pool ∪ drawn is a permutation
of the starting pool. -/
theorem drawLoop_spec (r : Nat → Nat) :
    ∀ (n i : Nat) (pool hand drawn : List GameCard),
      ∃ new : List GameCard,
        (CardActions.drawLoop r n i pool hand drawn).2.2 = drawn ++ new ∧
        (CardActions.drawLoop r n i pool hand drawn).2.1 = hand ++ new ∧
        new.length = min n pool.length ∧
        (CardActions.drawLoop r n i pool hand drawn).1.length
          = pool.length - min n pool.length ∧
        ((CardActions.drawLoop r n i pool hand drawn).1 : Multiset GameCard)
            + (new : Multiset GameCard)
          = (pool : Multiset GameCard) := by
  intro n
  induction n with
  | zero =>
    intro i pool hand drawn
    exact ⟨[], by simp [CardActions.drawLoop]⟩
  | succ n ih =>
    intro i pool hand drawn
    by_cases hlen : 0 < pool.length
    · have hidx : r i % pool.length < pool.length := Nat.mod_lt _ hlen
      have hc : pool.getD (r i % pool.length) dummyCard = pool[r i % pool.length] :=
        getD_eq_getElem_of_lt _ _ _ hidx
      have hunfold : CardActions.drawLoop r (n + 1) i pool hand drawn
          = CardActions.drawLoop r n (i + 1) (pool.eraseIdx (r i % pool.length))
              (hand ++ [pool.getD (r i % pool.length) dummyCard])
              (drawn ++ [pool.getD (r i % pool.length) dummyCard]) := by
        rw [CardActions.drawLoop]
        rw [if_pos hlen]
      obtain ⟨new, h1, h2, h3, h4, h5⟩ :=
        ih (i + 1) (pool.eraseIdx (r i % pool.length))
          (hand ++ [pool.getD (r i % pool.length) dummyCard])
          (drawn ++ [pool.getD (r i % pool.length) dummyCard])
      have herase : (pool.eraseIdx (r i % pool.length)).length = pool.length - 1 := by
        rw [List.length_eraseIdx]
        simp [hidx]
      refine ⟨pool.getD (r i % pool.length) dummyCard :: new, ?_, ?_, ?_, ?_, ?_⟩
      · rw [hunfold, h1]
        simp
      · rw [hunfold, h2]
        simp
      · simp only [List.length_cons, h3, herase]
        omega
      · rw [hunfold, h4, herase]
        omega
      · rw [hunfold]
        have hperm : ((pool[r i % pool.length] :: pool.eraseIdx (r i % pool.length)
            : List GameCard) : Multiset GameCard) = (pool : Multiset GameCard) :=
          Multiset.coe_eq_coe.mpr (getElem_cons_eraseIdx_perm pool _ hidx)
        calc ((CardActions.drawLoop r n (i + 1) (pool.eraseIdx (r i % pool.length))
                (hand ++ [pool.getD (r i % pool.length) dummyCard])
                (drawn ++ [pool.getD (r i % pool.length) dummyCard])).1
                  : Multiset GameCard)
              + ((pool.getD (r i % pool.length) dummyCard :: new : List GameCard)
                  : Multiset GameCard)
            = pool.getD (r i % pool.length) dummyCard ::ₘ
                (((CardActions.drawLoop r n (i + 1) (pool.eraseIdx (r i % pool.length))
                  (hand ++ [pool.getD (r i % pool.length) dummyCard])
                  (drawn ++ [pool.getD (r i % pool.length) dummyCard])).1
                    : Multiset GameCard) + (new : Multiset GameCard)) := by
              simp [Multiset.cons_coe]
          _ = pool.getD (r i % pool.length) dummyCard ::ₘ
                ((pool.eraseIdx (r i % pool.length) : List GameCard) : Multiset GameCard) := by
              rw [h5]
          _ = (pool : Multiset GameCard) := by
              rw [hc, Multiset.cons_coe, hperm]
    · have hlen0 : pool.length = 0 := by omega
      have hunfold : CardActions.drawLoop r (n + 1) i pool hand drawn
          = CardActions.drawLoop r n (i + 1) pool hand drawn := by
        rw [CardActions.drawLoop]
        rw [if_neg hlen]
      obtain ⟨new, h1, h2, h3, h4, h5⟩ := ih (i + 1) pool hand drawn
      exact ⟨new, by rw [hunfold]; exact h1, by rw [hunfold]; exact h2,
        by omega, by rw [hunfold]; omega, by rw [hunfold]; exact h5⟩

/-- The `reduce((a, b) => f(a) > f(b) ? a : b)` fold keeps the incumbent
only on strict comparison, so it lands on the LAST position attaining
the maximum: either every element is strictly below the seed (and the
seed survives), or the result is an element that is maximal and strictly
above everything after it. -/
theorem reduceKeepLater_spec {α W : Type} [LinearOrder W] (f : α → W) :
    ∀ (l : List (Nat × α)) (acc : Nat × α),
      (Achievements.reduceKeepLater f acc l = acc ∧ ∀ x ∈ l, f x.2 < f acc.2) ∨
      (∃ k, ∃ hk : k < l.length,
        Achievements.reduceKeepLater f acc l = l[k] ∧
        f acc.2 ≤ f (l[k]).2 ∧
        (∀ x ∈ l, f x.2 ≤ f (l[k]).2) ∧
        (∀ j, ∀ hj : j < l.length, k < j → f (l[j]).2 < f (l[k]).2)) := by
  intro l
  induction l with
  | nil =>
    intro acc
    left
    exact ⟨rfl, by simp⟩
  | cons b t ih =>
    intro acc
    have hstep : Achievements.reduceKeepLater f acc (b :: t)
        = Achievements.reduceKeepLater f (if f b.2 < f acc.2 then acc else b) t := rfl
    by_cases hcmp : f b.2 < f acc.2
    · have hstep2 : Achievements.reduceKeepLater f acc (b :: t)
          = Achievements.reduceKeepLater f acc t := by rw [hstep, if_pos hcmp]
      rcases ih acc with ⟨heq, hall⟩ | ⟨k, hk, heq, hge, hmax, hlast⟩
      · left
        refine ⟨by rw [hstep2]; exact heq, ?_⟩
        intro x hx
        rcases List.mem_cons.mp hx with rfl | hx'
        · exact hcmp
        · exact hall x hx'
      · right
        refine ⟨k + 1, Nat.succ_lt_succ hk, ?_, ?_, ?_, ?_⟩
        · rw [hstep2, List.getElem_cons_succ]
          exact heq
        · rw [List.getElem_cons_succ]
          exact hge
        · intro x hx
          rw [List.getElem_cons_succ]
          rcases List.mem_cons.mp hx with rfl | hx'
          · exact le_trans (le_of_lt hcmp) hge
          · exact hmax x hx'
        · intro j hj hkj
          cases j with
          | zero => omega
          | succ j2 =>
            rw [List.getElem_cons_succ, List.getElem_cons_succ]
            exact hlast j2 (Nat.lt_of_succ_lt_succ hj) (Nat.lt_of_succ_lt_succ hkj)
    · have hble : f acc.2 ≤ f b.2 := le_of_not_lt hcmp
      have hstep2 : Achievements.reduceKeepLater f acc (b :: t)
          = Achievements.reduceKeepLater f b t := by rw [hstep, if_neg hcmp]
      rcases ih b with ⟨heq, hall⟩ | ⟨k, hk, heq, hge, hmax, hlast⟩
      · right
        refine ⟨0, Nat.succ_pos _, ?_, ?_, ?_, ?_⟩
        · rw [hstep2, List.getElem_cons_zero]
          exact heq
        · rw [List.getElem_cons_zero]
          exact hble
        · intro x hx
          rw [List.getElem_cons_zero]
          rcases List.mem_cons.mp hx with rfl | hx'
          · exact le_refl _
          · exact le_of_lt (hall x hx')
        · intro j hj hkj
          cases j with
          | zero => omega
          | succ j2 =>
            have hj2 : j2 < t.length := by simpa using hj
            rw [List.getElem_cons_succ, List.getElem_cons_zero]
            exact hall (t[j2]) (List.getElem_mem _)
      · right
        refine ⟨k + 1, Nat.succ_lt_succ hk, ?_, ?_, ?_, ?_⟩
        · rw [hstep2, List.getElem_cons_succ]
          exact heq
        · rw [List.getElem_cons_succ]
          exact le_trans hble hge
        · intro x hx
          rw [List.getElem_cons_succ]
          rcases List.mem_cons.mp hx with rfl | hx'
          · exact hge
          · exact hmax x hx'
        · intro j hj hkj
          cases j with
          | zero => omega
          | succ j2 =>
            rw [List.getElem_cons_succ, List.getElem_cons_succ]
            exact hlast j2 (Nat.lt_of_succ_lt_succ hj) (Nat.lt_of_succ_lt_succ hkj)

/-- No generated effect ever touches the `winner` field. -/
theorem runEffect_winner_eq (spec : EffectSpec) (r : Nat → Nat)
    (p : PlayerState) (gs : GameState) :
    (InnateActions.runEffect spec r p gs).2.winner = gs.winner := by
  cases spec with
  | draw n => rfl
  | discard a b c => rfl
  | burn a b => rfl
  | exchange a b c d e g => rfl
  | swapCards n =>
    simp only [InnateActions.runEffect]
    split
    · split <;> rfl
    · rfl
  | convert src tgt sa ta =>
    simp only [InnateActions.runEffect]
    repeat' split
    all_goals rfl
  | buildFactory rt =>
    simp only [InnateActions.runEffect]
    repeat' split
    all_goals rfl

/-- Indexing form of `List.get?` for an in-range index. -/
theorem get?_eq_some_getD {α : Type} (l : List α) (i : Nat) (d : α)
    (h : i < l.length) : l.get? i = some (l.getD i d) := by
  rw [List.get?_eq_getElem?, List.getElem?_eq_getElem h, getD_eq_getElem_of_lt _ _ _ h]

/-- C3: for every GameState and cardId, if the card is not in the
current player's hand, or the current player's actionPoints is 0 or
less, or the player cannot afford some resource entry of the card's
cost, then `playCard` returns its input GameState unchanged. -/
theorem playCard_noop_on_invalid (gs : GameState) (cardId : Nat)
    (hp : gs.currentPlayer < gs.players.length)
    (h : (∀ c ∈ (gs.players.getD gs.currentPlayer dummyPlayer).hand, c.id ≠ cardId)
       ∨ (gs.players.getD gs.currentPlayer dummyPlayer).actionPoints ≤ 0
       ∨ (∀ c ∈ (gs.players.getD gs.currentPlayer dummyPlayer).hand, c.id = cardId →
            canAffordCost (gs.players.getD gs.currentPlayer dummyPlayer).resources c.cost
              = false)) :
    CardActions.playCard gs cardId = gs := by
  rw [CardActions.playCard]
  split
  · rfl
  · next cp hcp =>
    have hcpe : cp = gs.players.getD gs.currentPlayer dummyPlayer := by
      rw [get?_eq_some_getD _ _ dummyPlayer hp] at hcp
      exact (Option.some_injective _ hcp).symm
    subst hcpe
    split
    · rfl
    · next c hc =>
      have hmem := List.mem_of_find?_eq_some hc
      have hid : c.id = cardId := by simpa using List.find?_some hc
      rcases h with h1 | h2 | h3
      · exact absurd hid (h1 c hmem)
      · rw [if_pos h2]
      · by_cases hap : (gs.players.getD gs.currentPlayer dummyPlayer).actionPoints ≤ 0
        · rw [if_pos hap]
        · have hfa := h3 c hmem hid
          rw [List.getD_eq_getElem?_getD] at hfa
          rw [if_neg hap, if_pos (by simp [hfa])]

/-- C3 witness: a state whose current player has zero action points. -/
theorem playCard_noop_on_invalid_witness :
    Fixtures.stateNoAP.currentPlayer < Fixtures.stateNoAP.players.length ∧
    CardActions.playCard Fixtures.stateNoAP 7 = Fixtures.stateNoAP :=
  ⟨by decide,
   playCard_noop_on_invalid Fixtures.stateNoAP 7 (by decide)
     (Or.inr (Or.inl (by decide)))⟩

theorem getD_map_of_lt {α β : Type} (l : List α) (f : α → β) (i : Nat)
    (h : i < l.length) (d : β) (e : α) : (l.map f).getD i d = f (l.getD i e) := by
  rw [getD_eq_getElem_of_lt _ _ _ (by simpa using h), List.getElem_map,
    getD_eq_getElem_of_lt _ _ _ h]

/-- C10: for every state with a non-empty pool and every drawCount,
`drawCards` moves exactly `min drawCount poolSize` cards from the pool
into the current player's hand (the pool plus the drawn cards is a
permutation of the old pool) and decrements the current player's
actionPoints by exactly 1 unconditionally — there is no
`actionPoints ≥ 1` precondition, so a draw at 0 action points leaves
-1. -/
theorem drawCards_moves_min_and_decrements (gs : GameState) (n : Nat) (r : Nat → Nat)
    (hpool : gs.cardPool ≠ [])
    (hp : gs.currentPlayer < gs.players.length) :
    ((CardActions.drawCards gs n r).1.players.getD gs.currentPlayer dummyPlayer).hand
        = (gs.players.getD gs.currentPlayer dummyPlayer).hand
            ++ (CardActions.drawCards gs n r).2 ∧
    (CardActions.drawCards gs n r).2.length = min n gs.cardPool.length ∧
    (CardActions.drawCards gs n r).1.cardPool.length
        = gs.cardPool.length - min n gs.cardPool.length ∧
    ((CardActions.drawCards gs n r).1.cardPool : Multiset GameCard)
        + ((CardActions.drawCards gs n r).2 : Multiset GameCard)
        = (gs.cardPool : Multiset GameCard) ∧
    ((CardActions.drawCards gs n r).1.players.getD gs.currentPlayer dummyPlayer).actionPoints
        = (gs.players.getD gs.currentPlayer dummyPlayer).actionPoints - 1 := by
  have hnil : ¬ gs.cardPool.length = 0 := by
    simpa [List.length_eq_zero] using hpool
  have hcp : gs.players.get? gs.currentPlayer
      = some (gs.players.getD gs.currentPlayer dummyPlayer) :=
    get?_eq_some_getD _ _ dummyPlayer hp
  have hX : CardActions.drawCards gs n r
      = ({ gs with
            cardPool := (CardActions.drawLoop r n 0 gs.cardPool
              (gs.players.getD gs.currentPlayer dummyPlayer).hand []).1,
            players := gs.players.map (fun p =>
              if p.id == ({ gs.players.getD gs.currentPlayer dummyPlayer with
                    hand := (CardActions.drawLoop r n 0 gs.cardPool
                      (gs.players.getD gs.currentPlayer dummyPlayer).hand []).2.1,
                    actionPoints :=
                      (gs.players.getD gs.currentPlayer dummyPlayer).actionPoints - 1
                  } : PlayerState).id
              then { gs.players.getD gs.currentPlayer dummyPlayer with
                    hand := (CardActions.drawLoop r n 0 gs.cardPool
                      (gs.players.getD gs.currentPlayer dummyPlayer).hand []).2.1,
                    actionPoints :=
                      (gs.players.getD gs.currentPlayer dummyPlayer).actionPoints - 1 }
              else p) },
          (CardActions.drawLoop r n 0 gs.cardPool
            (gs.players.getD gs.currentPlayer dummyPlayer).hand []).2.2) := by
    rw [CardActions.drawCards, if_neg hnil, hcp]
  obtain ⟨new, h1, h2, h3, h4, h5⟩ :=
    drawLoop_spec r n 0 gs.cardPool (gs.players.getD gs.currentPlayer dummyPlayer).hand []
  have houtp :
      ((CardActions.drawCards gs n r).1.players.getD gs.currentPlayer dummyPlayer)
        = { gs.players.getD gs.currentPlayer dummyPlayer with
            hand := (CardActions.drawLoop r n 0 gs.cardPool
              (gs.players.getD gs.currentPlayer dummyPlayer).hand []).2.1,
            actionPoints :=
              (gs.players.getD gs.currentPlayer dummyPlayer).actionPoints - 1 } := by
    rw [hX]
    rw [getD_map_of_lt gs.players _ _ hp dummyPlayer dummyPlayer]
    rw [if_pos (by simp)]
  have h1x : (CardActions.drawLoop r n 0 gs.cardPool
      (gs.players.getD gs.currentPlayer dummyPlayer).hand []).2.2 = new := by
    simpa using h1
  have e1 : ((CardActions.drawCards gs n r).1.players.getD gs.currentPlayer dummyPlayer).hand
      = (CardActions.drawLoop r n 0 gs.cardPool
          (gs.players.getD gs.currentPlayer dummyPlayer).hand []).2.1 := by
    rw [houtp]
  have e2 : (CardActions.drawCards gs n r).2
      = (CardActions.drawLoop r n 0 gs.cardPool
          (gs.players.getD gs.currentPlayer dummyPlayer).hand []).2.2 := by
    rw [hX]
  have e3 : (CardActions.drawCards gs n r).1.cardPool
      = (CardActions.drawLoop r n 0 gs.cardPool
          (gs.players.getD gs.currentPlayer dummyPlayer).hand []).1 := by
    rw [hX]
  have e5 : ((CardActions.drawCards gs n r).1.players.getD gs.currentPlayer
        dummyPlayer).actionPoints
      = (gs.players.getD gs.currentPlayer dummyPlayer).actionPoints - 1 := by
    rw [houtp]
  refine ⟨?_, ?_, ?_, ?_, ?_⟩
  · rw [e1, e2, h1x, h2]
  · rw [e2, h1x, h3]
  · rw [e3, h4]
  · rw [e3, e2, h1x, h5]
  · exact e5

/-- C10 witness: one card in the pool, drawCount 1, the player at 0
action points ends at -1. -/
theorem drawCards_moves_min_and_decrements_witness :
    Fixtures.stateOnePool.cardPool ≠ [] ∧
    Fixtures.stateOnePool.currentPlayer < Fixtures.stateOnePool.players.length ∧
    ((CardActions.drawCards Fixtures.stateOnePool 1 (fun _ => 0)).1.players.getD
        Fixtures.stateOnePool.currentPlayer dummyPlayer).actionPoints
      = (Fixtures.stateOnePool.players.getD Fixtures.stateOnePool.currentPlayer
          dummyPlayer).actionPoints - 1 :=
  ⟨by decide, by decide,
   (drawCards_moves_min_and_decrements Fixtures.stateOnePool 1 (fun _ => 0)
      (by decide) (by decide)).2.2.2.2⟩

/-- Field-by-field effect of `applyCardRewards`. -/
theorem applyCardRewards_proj (q : PlayerState) (c : GameCard) :
    (CardActions.applyCardRewards q c).id = q.id ∧
    (CardActions.applyCardRewards q c).hand = q.hand ∧
    (CardActions.applyCardRewards q c).playedCards = q.playedCards ∧
    (CardActions.applyCardRewards q c).victoryPoints
      = q.victoryPoints + c.reward.victoryPoints ∧
    (CardActions.applyCardRewards q c).actionPoints
      = q.actionPoints - 1 + (if c.reward.innateAction.isSome then 1 else 0) ∧
    (CardActions.applyCardRewards q c).achievementPoints = q.achievementPoints ∧
    (CardActions.applyCardRewards q c).resources
      = (if c.reward.isFactory then q.resources
         else addEntries q.resources c.reward.resources) ∧
    (CardActions.applyCardRewards q c).factories
      = (if c.reward.isFactory then addEntries q.factories c.reward.resources
         else q.factories) := by
  unfold CardActions.applyCardRewards
  cases hia : c.reward.innateAction <;> cases hif : c.reward.isFactory <;>
    simp [hia, hif]

/-- C2: playing a card the current player holds, with at least one
action point and an affordable cost, removes the card from the hand
(filter on its id), appends it to playedCards, adds its victoryPoints,
spends exactly one action point before any attached bonus innate action
(which refunds one), deducts exactly the cost from the resources, and
routes the reward amounts into factories when `reward.isFactory` and
into resources otherwise. -/
theorem playCard_affordable_effects (gs : GameState) (cardId : Nat) (card : GameCard)
    (hp : gs.currentPlayer < gs.players.length)
    (hfind : (gs.players.getD gs.currentPlayer dummyPlayer).hand.find?
        (fun c => c.id == cardId) = some card)
    (hap : 0 < (gs.players.getD gs.currentPlayer dummyPlayer).actionPoints)
    (haff : canAffordCost (gs.players.getD gs.currentPlayer dummyPlayer).resources
        card.cost = true) :
    let p := gs.players.getD gs.currentPlayer dummyPlayer
    let out := (CardActions.playCard gs cardId).players.getD gs.currentPlayer dummyPlayer
    out.hand = p.hand.filter (fun c => c.id != cardId) ∧
    out.playedCards = p.playedCards ++ [card] ∧
    out.victoryPoints = p.victoryPoints + card.reward.victoryPoints ∧
    out.actionPoints
      = p.actionPoints - 1 + (if card.reward.innateAction.isSome then 1 else 0) ∧
    (∀ t : ResourceType,
      getOr0 out.resources t
        = getOr0 p.resources t - entriesAmt card.cost t
            + (if card.reward.isFactory then 0
               else entriesAmt card.reward.resources t)) ∧
    (∀ t : ResourceType,
      getOr0 out.factories t
        = getOr0 p.factories t
            + (if card.reward.isFactory then entriesAmt card.reward.resources t
               else 0)) ∧
    (card.reward.isFactory = false → out.factories = p.factories) := by
  intro p out
  have hsome : gs.players.get? gs.currentPlayer = some p :=
    get?_eq_some_getD _ _ dummyPlayer hp
  have houtplayers : (CardActions.playCard gs cardId).players
      = gs.players.map (fun x =>
          if x.id == (CardActions.applyCardRewards
              { p with
                hand := p.hand.filter (fun c => c.id != cardId),
                playedCards := p.playedCards ++ [card],
                resources := deductEntries p.resources card.cost } card).id
          then CardActions.applyCardRewards
              { p with
                hand := p.hand.filter (fun c => c.id != cardId),
                playedCards := p.playedCards ++ [card],
                resources := deductEntries p.resources card.cost } card
          else x) := by
    rw [CardActions.playCard]
    split
    · next heq =>
      rw [hsome] at heq
      simp at heq
    · next cp hcp2 =>
      have hcpe : cp = p := by
        rw [hsome] at hcp2
        exact (Option.some_injective _ hcp2).symm
      subst hcpe
      split
      · next heq =>
        rw [hfind] at heq
        cases heq
      · next c hc =>
        have hce : c = card := by
          rw [hfind] at hc
          exact (Option.some_injective _ hc).symm
        subst hce
        rw [if_neg (not_le.mpr hap), if_neg (by simp [haff])]
        dsimp only
        split <;> rfl
  have hq := applyCardRewards_proj
    { p with
      hand := p.hand.filter (fun c => c.id != cardId),
      playedCards := p.playedCards ++ [card],
      resources := deductEntries p.resources card.cost } card
  obtain ⟨hqid, hqhand, hqplayed, hqvp, hqap, hqach, hqres, hqfac⟩ := hq
  have hout : out = CardActions.applyCardRewards
      { p with
        hand := p.hand.filter (fun c => c.id != cardId),
        playedCards := p.playedCards ++ [card],
        resources := deductEntries p.resources card.cost } card := by
    show (CardActions.playCard gs cardId).players.getD gs.currentPlayer dummyPlayer = _
    rw [houtplayers, getD_map_of_lt gs.players _ _ hp dummyPlayer dummyPlayer]
    rw [if_pos (by rw [hqid]; simp; rw [← List.getD_eq_getElem?_getD])]
  refine ⟨?_, ?_, ?_, ?_, ?_, ?_, ?_⟩
  · rw [hout, hqhand]
  · rw [hout, hqplayed]
  · rw [hout, hqvp]
  · rw [hout, hqap]
  · intro t
    rw [hout, hqres]
    cases hif : card.reward.isFactory
    · rw [if_neg Bool.false_ne_true, if_neg Bool.false_ne_true,
        getOr0_addEntries, getOr0_deductEntries]
    · rw [if_pos rfl, if_pos rfl, getOr0_deductEntries]
      ring
  · intro t
    rw [hout, hqfac]
    cases hif : card.reward.isFactory
    · rw [if_neg Bool.false_ne_true, if_neg Bool.false_ne_true]
      ring
    · rw [if_pos rfl, if_pos rfl, getOr0_addEntries]
  · intro hif
    rw [hout, hqfac, if_neg (by simp [hif])]

/-- C2 witness: a concrete affordable play. -/
theorem playCard_affordable_effects_witness :
    (0 < (Fixtures.stateCanPlay.players.getD Fixtures.stateCanPlay.currentPlayer
        dummyPlayer).actionPoints) ∧
    (let p := Fixtures.stateCanPlay.players.getD Fixtures.stateCanPlay.currentPlayer
        dummyPlayer
     let out := (CardActions.playCard Fixtures.stateCanPlay 7).players.getD
        Fixtures.stateCanPlay.currentPlayer dummyPlayer
     out.hand = p.hand.filter (fun c => c.id != 7) ∧
     out.playedCards = p.playedCards ++ [Fixtures.cardWoodBrick] ∧
     out.victoryPoints = p.victoryPoints + Fixtures.cardWoodBrick.reward.victoryPoints ∧
     out.actionPoints
       = p.actionPoints - 1
           + (if Fixtures.cardWoodBrick.reward.innateAction.isSome then 1 else 0) ∧
     (∀ t : ResourceType,
       getOr0 out.resources t
         = getOr0 p.resources t - entriesAmt Fixtures.cardWoodBrick.cost t
             + (if Fixtures.cardWoodBrick.reward.isFactory then 0
                else entriesAmt Fixtures.cardWoodBrick.reward.resources t)) ∧
     (∀ t : ResourceType,
       getOr0 out.factories t
         = getOr0 p.factories t
             + (if Fixtures.cardWoodBrick.reward.isFactory
                then entriesAmt Fixtures.cardWoodBrick.reward.resources t
                else 0)) ∧
     (Fixtures.cardWoodBrick.reward.isFactory = false → out.factories = p.factories)) :=
  ⟨by decide,
   playCard_affordable_effects Fixtures.stateCanPlay 7 Fixtures.cardWoodBrick
     (by decide) (by decide) (by decide) (by decide)⟩

/-- C1 counterexample: an affordable innate action after which the
acting player's victoryPoints + achievementPoints is 10, yet winner is
NOT set (the innate-action win check reads victoryPoints alone). -/
theorem innate_win_check_ignores_achievements_cex :
    Game.innateAffordable Fixtures.drawAction.cost
      (Fixtures.stateVP5A5.players.getD 0 dummyPlayer) = true ∧
    (Game.performInnateAction Fixtures.stateVP5A5 Fixtures.drawAction (fun _ => 0)).winner
      = none ∧
    10 ≤ ((Game.performInnateAction Fixtures.stateVP5A5 Fixtures.drawAction
          (fun _ => 0)).players.getD 0 dummyPlayer).victoryPoints
        + ((Game.performInnateAction Fixtures.stateVP5A5 Fixtures.drawAction
          (fun _ => 0)).players.getD 0 dummyPlayer).achievementPoints := by
  decide

/-- C1 (amended): with a passing cost check, `performInnateAction` sets
winner to the acting player's id exactly when the post-effect player's
victoryPoints alone reach 10 — achievementPoints are NOT included;
`playCard` checks the combined victoryPoints + achievementPoints
total. -/
theorem win_check_thresholds :
    (∀ (gs : GameState) (action : InnateAction) (r : Nat → Nat),
      gs.currentPlayer < gs.players.length →
      Game.innateAffordable action.cost
        (gs.players.getD gs.currentPlayer dummyPlayer) = true →
      (Game.performInnateAction gs action r).winner
        = (if 10 ≤ (InnateActions.runEffect action.effect r
              (gs.players.getD gs.currentPlayer dummyPlayer) gs).1.victoryPoints
           then some (InnateActions.runEffect action.effect r
              (gs.players.getD gs.currentPlayer dummyPlayer) gs).1.id
           else gs.winner)) ∧
    (∀ (gs : GameState) (cardId : Nat) (card : GameCard),
      gs.currentPlayer < gs.players.length →
      (gs.players.getD gs.currentPlayer dummyPlayer).hand.find?
        (fun c => c.id == cardId) = some card →
      0 < (gs.players.getD gs.currentPlayer dummyPlayer).actionPoints →
      canAffordCost (gs.players.getD gs.currentPlayer dummyPlayer).resources
        card.cost = true →
      (CardActions.playCard gs cardId).winner
        = (if 10 ≤ (gs.players.getD gs.currentPlayer dummyPlayer).victoryPoints
               + card.reward.victoryPoints
               + (gs.players.getD gs.currentPlayer dummyPlayer).achievementPoints
           then some (gs.players.getD gs.currentPlayer dummyPlayer).id
           else gs.winner)) := by
  constructor
  · intro gs action r hp haff
    have hsome : gs.players.get? gs.currentPlayer
        = some (gs.players.getD gs.currentPlayer dummyPlayer) :=
      get?_eq_some_getD _ _ dummyPlayer hp
    rw [Game.performInnateAction]
    split
    · next heq =>
      rw [hsome] at heq
      simp at heq
    · next cp hcp2 =>
      have hcpe : cp = gs.players.getD gs.currentPlayer dummyPlayer := by
        rw [hsome] at hcp2
        exact (Option.some_injective _ hcp2).symm
      subst hcpe
      rw [if_pos haff]
      dsimp only
      by_cases hwin : 10 ≤ (InnateActions.runEffect action.effect r
          (gs.players.getD gs.currentPlayer dummyPlayer) gs).1.victoryPoints
      · rw [if_pos hwin, if_pos hwin]
      · rw [if_neg hwin, if_neg hwin]
        exact runEffect_winner_eq action.effect r _ gs
  · intro gs cardId card hp hfind hap haff
    have hsome : gs.players.get? gs.currentPlayer
        = some (gs.players.getD gs.currentPlayer dummyPlayer) :=
      get?_eq_some_getD _ _ dummyPlayer hp
    rw [CardActions.playCard]
    split
    · next heq =>
      rw [hsome] at heq
      simp at heq
    · next cp hcp2 =>
      have hcpe : cp = gs.players.getD gs.currentPlayer dummyPlayer := by
        rw [hsome] at hcp2
        exact (Option.some_injective _ hcp2).symm
      subst hcpe
      split
      · next heq =>
        rw [hfind] at heq
        cases heq
      · next c hc =>
        have hce : card = c := by
          rw [hfind] at hc
          exact Option.some_injective _ hc
        subst hce
        obtain ⟨hqid, hqhand, hqplayed, hqvp, hqap, hqach, hqres, hqfac⟩ :=
          applyCardRewards_proj
            { gs.players.getD gs.currentPlayer dummyPlayer with
              hand := (gs.players.getD gs.currentPlayer dummyPlayer).hand.filter
                (fun c => c.id != cardId),
              playedCards := (gs.players.getD gs.currentPlayer dummyPlayer).playedCards
                ++ [card],
              resources := deductEntries
                (gs.players.getD gs.currentPlayer dummyPlayer).resources card.cost } card
        have haff2 := haff
        rw [List.getD_eq_getElem?_getD] at haff2
        rw [if_neg (not_le.mpr hap), if_neg (by simp [haff2])]
        dsimp only
        rw [hqvp, hqach, hqid]
        by_cases hwin : 10 ≤ (gs.players.getD gs.currentPlayer dummyPlayer).victoryPoints
            + card.reward.victoryPoints
            + (gs.players.getD gs.currentPlayer dummyPlayer).achievementPoints
        · rw [if_pos hwin, if_pos hwin]
        · rw [if_neg hwin, if_neg hwin]

/-- C1 witness: both parts applied at concrete inputs. -/
theorem win_check_thresholds_witness :
    ((Game.performInnateAction Fixtures.stateVP5A5 Fixtures.drawAction (fun _ => 0)).winner
      = (if 10 ≤ (InnateActions.runEffect Fixtures.drawAction.effect (fun _ => 0)
            (Fixtures.stateVP5A5.players.getD Fixtures.stateVP5A5.currentPlayer
              dummyPlayer) Fixtures.stateVP5A5).1.victoryPoints
         then some (InnateActions.runEffect Fixtures.drawAction.effect (fun _ => 0)
            (Fixtures.stateVP5A5.players.getD Fixtures.stateVP5A5.currentPlayer
              dummyPlayer) Fixtures.stateVP5A5).1.id
         else Fixtures.stateVP5A5.winner)) ∧
    ((CardActions.playCard Fixtures.stateCanPlay 7).winner
      = (if 10 ≤ (Fixtures.stateCanPlay.players.getD Fixtures.stateCanPlay.currentPlayer
             dummyPlayer).victoryPoints
             + Fixtures.cardWoodBrick.reward.victoryPoints
             + (Fixtures.stateCanPlay.players.getD Fixtures.stateCanPlay.currentPlayer
             dummyPlayer).achievementPoints
         then some (Fixtures.stateCanPlay.players.getD Fixtures.stateCanPlay.currentPlayer
             dummyPlayer).id
         else Fixtures.stateCanPlay.winner)) :=
  ⟨win_check_thresholds.1 Fixtures.stateVP5A5 Fixtures.drawAction (fun _ => 0)
      (by decide) (by decide),
   win_check_thresholds.2 Fixtures.stateCanPlay 7 Fixtures.cardWoodBrick
      (by decide) (by decide) (by decide) (by decide)⟩

/-- C4 (code bug, game.tsx:790): ending a NON-wrapping turn
(`currentPlayer` 0 → 1 of 2) still adds the factory count to player 0's
wood stock in the component-local `nextTurn` (2 → 3), although its own
doc comment says production happens "at the start of each round" and the
game-logic module's `nextTurn` (game-state.ts:100), shown alongside,
leaves the stock at 2 on the same input. -/
theorem ui_nextTurn_produces_on_nonwrap :
    (Game.nextTurn Fixtures.stateTwoPlayers Fixtures.cfgTwoPlayers).currentPlayer = 1 ∧
    ((Game.nextTurn Fixtures.stateTwoPlayers Fixtures.cfgTwoPlayers).players.getD 0
        dummyPlayer).resources = [(ResourceType.wood, 3)] ∧
    (Fixtures.stateTwoPlayers.players.getD 0 dummyPlayer).resources
      = [(ResourceType.wood, 2)] ∧
    (Fixtures.stateTwoPlayers.players.getD 0 dummyPlayer).factories
      = [(ResourceType.wood, 1)] ∧
    ((GameStateTS.nextTurn Fixtures.stateTwoPlayers Fixtures.cfgTwoPlayers).players.getD 0
        dummyPlayer).resources = [(ResourceType.wood, 2)] := by
  decide

/-- C5 (code bug, game.tsx:999-1031): sponsoring with an unaffordable
resource cost is NOT a no-op — the award comes back `sponsored = true`
with `sponsoredBy` stamped (the mutation made before the affordability
check leaks through the shared award object), while `sponsoredAwards`
and the players are unchanged. -/
theorem sponsorAward_unaffordable_mutates_award :
    ((Game.sponsorAward false Fixtures.stateSponsorPoor 1 (fun _ => 0) 0).achievements.awards.getD
        0 dummyAward).sponsored = true ∧
    ((Game.sponsorAward false Fixtures.stateSponsorPoor 1 (fun _ => 0) 0).achievements.awards.getD
        0 dummyAward).sponsoredBy = some 0 ∧
    (Fixtures.stateSponsorPoor.achievements.awards.getD 0 dummyAward).sponsored = false ∧
    (Game.sponsorAward false Fixtures.stateSponsorPoor 1 (fun _ => 0) 0).achievements.sponsoredAwards
      = 0 ∧
    (Game.sponsorAward false Fixtures.stateSponsorPoor 1 (fun _ => 0) 0).players
      = Fixtures.stateSponsorPoor.players ∧
    lookupRes (Fixtures.stateSponsorPoor.players.getD 0 dummyPlayer).resources
      ResourceType.wood = some 0 ∧
    Fixtures.stateSponsorPoor.achievements.sponsorCost
      = { type := SponsorCostType.resource, amount := 10,
          resourceType := some ResourceType.wood } := by
  decide

/-- C9 (code bug, card-actions.ts:146-156): under reference semantics,
`drawCards` pushes the drawn card into the hand array cell (cell 1) that
the INPUT state's current player still references — the input state is
mutated, not treated as immutable. -/
theorem drawCards_mutates_input_hand :
    (RefModel.drawCardsRef RefModel.heap0 RefModel.state0 1 (fun _ => 0) 2) 1
      = [dummyCard] ∧
    RefModel.heap0 1 = [] := by
  decide

/-- C6 counterexample: project 1 ("play 6 cards") is unclaimed and its
completion predicate is false for the current player (no played cards),
yet `claimProject` claims it: `claimedProjects` goes 0 → 1 and the
player gains 7 achievement points. -/
theorem claimProject_ignores_isCompleted_cex :
    Achievements.isCompletedEval ProjectKind.playSixCards
      (Fixtures.stateNoPlays.players.getD 0 dummyPlayer) Fixtures.stateNoPlays = false ∧
    (Fixtures.stateNoPlays.achievements.projects.getD 0 dummyProject).kind
      = ProjectKind.playSixCards ∧
    (Fixtures.stateNoPlays.achievements.projects.getD 0 dummyProject).id = 1 ∧
    (Fixtures.stateNoPlays.achievements.projects.getD 0 dummyProject).claimed = false ∧
    (Game.claimProject false Fixtures.stateNoPlays 1).achievements.claimedProjects = 1 ∧
    Fixtures.stateNoPlays.achievements.claimedProjects = 0 ∧
    ((Game.claimProject false Fixtures.stateNoPlays 1).players.getD 0
        dummyPlayer).achievementPoints = 7 := by
  decide

theorem findIdx?_lt_length_aux {α : Type} (p : α → Bool) :
    ∀ (l : List α) (s i : Nat), List.findIdx? p l s = some i → i < s + l.length := by
  intro l
  induction l with
  | nil =>
    intro s i h
    simp [List.findIdx?] at h
  | cons a t ih =>
    intro s i h
    rw [List.findIdx?_cons] at h
    by_cases hp : p a = true
    · rw [if_pos hp] at h
      have : s = i := Option.some_injective _ h
      simp [← this]
    · rw [if_neg hp] at h
      have := ih (s + 1) i h
      simp only [List.length_cons]
      omega

theorem findIdx?_lt_length {α : Type} (p : α → Bool) (l : List α) (i : Nat)
    (h : l.findIdx? p = some i) : i < l.length := by
  have := findIdx?_lt_length_aux p l 0 i h
  omega

/-- C6 (amended): `claimProject` never consults the completion
predicate.  It is a no-op exactly when the per-round gate is set, the
project id is not found, or the project is already claimed; otherwise —
even when `isCompleted` is false for the current player — it marks the
project claimed, stamps `claimedBy`, and increments `claimedProjects`. -/
theorem claimProject_characterization (gate : Bool) (gs : GameState) (projectId : Nat) :
    (gate = true → Game.claimProject gate gs projectId = gs) ∧
    (gs.achievements.projects.findIdx? (fun p => p.id == projectId) = none →
      Game.claimProject gate gs projectId = gs) ∧
    (∀ projectIndex : Nat,
      gs.achievements.projects.findIdx? (fun p => p.id == projectId) = some projectIndex →
      (gs.achievements.projects.getD projectIndex dummyProject).claimed = true →
      Game.claimProject gate gs projectId = gs) ∧
    (∀ projectIndex : Nat,
      gate = false →
      gs.achievements.projects.findIdx? (fun p => p.id == projectId) = some projectIndex →
      (gs.achievements.projects.getD projectIndex dummyProject).claimed = false →
      (Game.claimProject gate gs projectId).achievements.claimedProjects
          = gs.achievements.claimedProjects + 1 ∧
      ((Game.claimProject gate gs projectId).achievements.projects.getD projectIndex
          dummyProject).claimed = true ∧
      ((Game.claimProject gate gs projectId).achievements.projects.getD projectIndex
          dummyProject).claimedBy = some gs.currentPlayer) := by
  refine ⟨?_, ?_, ?_, ?_⟩
  · intro hg
    rw [Game.claimProject, if_pos hg]
  · intro hnone
    by_cases hg : gate = true
    · rw [Game.claimProject, if_pos hg]
    · rw [Game.claimProject, if_neg hg]
      split
      · rfl
      · next pi2 heq =>
        rw [hnone] at heq
        cases heq
  · intro projectIndex hfound hclaimed
    by_cases hg : gate = true
    · rw [Game.claimProject, if_pos hg]
    · rw [Game.claimProject, if_neg hg]
      split
      · rfl
      · next pi2 heq =>
        have hpi : pi2 = projectIndex := by
          rw [hfound] at heq
          exact (Option.some_injective _ heq).symm
        subst hpi
        rw [if_pos hclaimed]
  · intro projectIndex hg hfound hclaimed
    have hlt : projectIndex < gs.achievements.projects.length :=
      findIdx?_lt_length _ _ _ hfound
    have hgf : ¬ gate = true := by simp [hg]
    have hX : Game.claimProject gate gs projectId
        = { gs with
            achievements := { gs.achievements with
              projects := gs.achievements.projects.set projectIndex
                { gs.achievements.projects.getD projectIndex dummyProject with
                  claimed := true, claimedBy := some gs.currentPlayer },
              claimedProjects := gs.achievements.claimedProjects + 1 },
            players := gs.players.set gs.currentPlayer
              { gs.players.getD gs.currentPlayer dummyPlayer with
                achievementPoints :=
                  (gs.players.getD gs.currentPlayer dummyPlayer).achievementPoints
                    + (if gs.achievements.claimedProjects + 1 = 1 then 7
                       else if gs.achievements.claimedProjects + 1 = 2 then 5 else 3),
                actionPoints :=
                  (gs.players.getD gs.currentPlayer dummyPlayer).actionPoints - 1 } } := by
      rw [Game.claimProject, if_neg hgf]
      split
      · next heq =>
        rw [hfound] at heq
        cases heq
      · next pi2 heq =>
        have hpi : pi2 = projectIndex := by
          rw [hfound] at heq
          exact (Option.some_injective _ heq).symm
        subst hpi
        have h2 := hclaimed
        rw [List.getD_eq_getElem?_getD] at h2
        rw [if_neg (by simp [h2])]
    have hgetset : ((gs.achievements.projects.set projectIndex
        { gs.achievements.projects.getD projectIndex dummyProject with
          claimed := true, claimedBy := some gs.currentPlayer }).getD projectIndex
            dummyProject)
        = { gs.achievements.projects.getD projectIndex dummyProject with
            claimed := true, claimedBy := some gs.currentPlayer } := by
      rw [getD_eq_getElem_of_lt _ _ _ (by simpa using hlt)]
      exact List.getElem_set_self _
    refine ⟨?_, ?_, ?_⟩
    · rw [hX]
    · rw [hX]
      show ((gs.achievements.projects.set projectIndex _).getD projectIndex
        dummyProject).claimed = true
      rw [hgetset]
    · rw [hX]
      show ((gs.achievements.projects.set projectIndex _).getD projectIndex
        dummyProject).claimedBy = some gs.currentPlayer
      rw [hgetset]

/-- C6 witness: the amended characterisation applied at the concrete
fixture (both a successful claim of an uncompleted project and a gated
no-op). -/
theorem claimProject_characterization_witness :
    (Game.claimProject true Fixtures.stateNoPlays 1 = Fixtures.stateNoPlays) ∧
    (Game.claimProject false Fixtures.stateNoPlays 1).achievements.claimedProjects
      = Fixtures.stateNoPlays.achievements.claimedProjects + 1 :=
  ⟨(claimProject_characterization true Fixtures.stateNoPlays 1).1 rfl,
   ((claimProject_characterization false Fixtures.stateNoPlays 1).2.2.2 0 rfl
      (by decide) (by decide)).1⟩

/-- C7 counterexample: two players tied on hand size — `evaluate`
returns index 1 (the later player), not the earliest tied index 0. -/
theorem award_evaluate_tie_cex :
    Achievements.evaluateAward AwardKind.biggestHand
      [Fixtures.tiedPlayerA, Fixtures.tiedPlayerB] = some 1 ∧
    Achievements.awardMeasure AwardKind.biggestHand Fixtures.tiedPlayerA
      = Achievements.awardMeasure AwardKind.biggestHand Fixtures.tiedPlayerB := by
  decide

/-- C7 (amended): for every non-empty player list, each award's
`evaluate` returns the index of a player whose measured quantity is
maximal; when two or more players tie for the maximum it returns the
LAST such index (every strictly later player measures strictly less),
because the `a > b ? a : b` reduction keeps the challenger on ties. -/
theorem award_evaluate_last_argmax (kind : AwardKind) (players : List PlayerState)
    (hne : players ≠ []) :
    ∃ i, i < players.length ∧
      Achievements.evaluateAward kind players = some i ∧
      (∀ j, j < players.length →
        Achievements.awardMeasure kind (players.getD j dummyPlayer)
          ≤ Achievements.awardMeasure kind (players.getD i dummyPlayer)) ∧
      (∀ j, j < players.length → i < j →
        Achievements.awardMeasure kind (players.getD j dummyPlayer)
          < Achievements.awardMeasure kind (players.getD i dummyPlayer)) := by
  cases players with
  | nil => exact absurd rfl hne
  | cons x xs =>
    have hlen : (xs.enumFrom 1).length = xs.length := List.enumFrom_length
    have hget : ∀ (j : Nat) (hj : j < xs.length), (xs.enumFrom 1)[j] = (1 + j, xs[j]) := by
      intro j hj
      exact List.getElem_enumFrom xs 1 j (by omega)
    have hD : ∀ (j : Nat) (hj : j < (x :: xs).length),
        ((x :: xs).getD j dummyPlayer) = (x :: xs)[j] := by
      intro j hj
      exact getD_eq_getElem_of_lt _ _ _ hj
    rcases reduceKeepLater_spec (Achievements.awardMeasure kind) (xs.enumFrom 1) (0, x)
      with ⟨heq, hall⟩ | ⟨k, hk, heq, hge, hmax, hlast⟩
    · refine ⟨0, Nat.succ_pos _, ?_, ?_, ?_⟩
      · show some (Achievements.reduceKeepLater (Achievements.awardMeasure kind)
          (0, x) (xs.enumFrom 1)).1 = some 0
        rw [heq]
      · intro j hj
        rw [hD j hj, hD 0 (Nat.succ_pos _)]
        cases j with
        | zero => exact le_refl _
        | succ j2 =>
          have hj2 : j2 < xs.length := by simpa using hj
          have hmem : (xs.enumFrom 1)[j2] ∈ xs.enumFrom 1 := List.getElem_mem _
          have := hall _ hmem
          rw [hget j2 hj2] at this
          exact le_of_lt this
      · intro j hj hij
        rw [hD j hj, hD 0 (Nat.succ_pos _)]
        cases j with
        | zero => omega
        | succ j2 =>
          have hj2 : j2 < xs.length := by simpa using hj
          have hmem : (xs.enumFrom 1)[j2] ∈ xs.enumFrom 1 := List.getElem_mem _
          have := hall _ hmem
          rw [hget j2 hj2] at this
          exact this
    · have hkx : k < xs.length := by omega
      refine ⟨k + 1, by simpa using Nat.succ_lt_succ hkx, ?_, ?_, ?_⟩
      · show some (Achievements.reduceKeepLater (Achievements.awardMeasure kind)
          (0, x) (xs.enumFrom 1)).1 = some (k + 1)
        rw [heq, hget k hkx]
        simp [Nat.add_comm]
      · intro j hj
        have hik : ((x :: xs).getD (k + 1) dummyPlayer) = xs[k] := by
          rw [hD (k + 1) (by simpa using Nat.succ_lt_succ hkx)]
          exact List.getElem_cons_succ _ _ _ _
        rw [hD j hj, hik]
        have hkm := hget k hkx
        cases j with
        | zero =>
          have : Achievements.awardMeasure kind (0, x).2
              ≤ Achievements.awardMeasure kind ((xs.enumFrom 1)[k]).2 := hge
          rw [hkm] at this
          exact this
        | succ j2 =>
          have hj2 : j2 < xs.length := by simpa using hj
          have hmem : (xs.enumFrom 1)[j2] ∈ xs.enumFrom 1 := List.getElem_mem _
          have := hmax _ hmem
          rw [hget j2 hj2, hkm] at this
          simpa using this
      · intro j hj hij
        have hik : ((x :: xs).getD (k + 1) dummyPlayer) = xs[k] := by
          rw [hD (k + 1) (by simpa using Nat.succ_lt_succ hkx)]
          exact List.getElem_cons_succ _ _ _ _
        rw [hD j hj, hik]
        have hkm := hget k hkx
        cases j with
        | zero => omega
        | succ j2 =>
          have hj2 : j2 < xs.length := by simpa using hj
          have := hlast j2 (by omega) (by omega)
          rw [hget j2 hj2, hkm] at this
          simpa using this

/-- C7 witness: the amended tie-breaking theorem applied at the tied
two-player fixture. -/
theorem award_evaluate_last_argmax_witness :
    ([Fixtures.tiedPlayerA, Fixtures.tiedPlayerB] : List PlayerState) ≠ [] ∧
    (∃ i, i < ([Fixtures.tiedPlayerA, Fixtures.tiedPlayerB] : List PlayerState).length ∧
      Achievements.evaluateAward AwardKind.biggestHand
        [Fixtures.tiedPlayerA, Fixtures.tiedPlayerB] = some i ∧
      (∀ j, j < ([Fixtures.tiedPlayerA, Fixtures.tiedPlayerB] : List PlayerState).length →
        Achievements.awardMeasure AwardKind.biggestHand
          (([Fixtures.tiedPlayerA, Fixtures.tiedPlayerB] : List PlayerState).getD j dummyPlayer)
          ≤ Achievements.awardMeasure AwardKind.biggestHand
            (([Fixtures.tiedPlayerA, Fixtures.tiedPlayerB] : List PlayerState).getD i dummyPlayer)) ∧
      (∀ j, j < ([Fixtures.tiedPlayerA, Fixtures.tiedPlayerB] : List PlayerState).length →
        i < j →
        Achievements.awardMeasure AwardKind.biggestHand
          (([Fixtures.tiedPlayerA, Fixtures.tiedPlayerB] : List PlayerState).getD j dummyPlayer)
          < Achievements.awardMeasure AwardKind.biggestHand
            (([Fixtures.tiedPlayerA, Fixtures.tiedPlayerB] : List PlayerState).getD i dummyPlayer))) :=
  ⟨by decide,
   award_evaluate_last_argmax AwardKind.biggestHand
     [Fixtures.tiedPlayerA, Fixtures.tiedPlayerB] (by decide)⟩

/-- C8: `generateCards` returns exactly `totalCards` cards, with ids
exactly 0..totalCards-1, generated as `totalCards/3` cards for each of
the three tiers with every leftover card generated as tier 2 — stated
as: the output is the index-map of `cardTier`, its ids enumerate the
range, and `cardTier` assigns `totalCards/3` indices to tiers 0 and 1
and the rest to tier 2. -/
theorem generateCards_count_ids_tiers (config : GameConfig)
    (resourceTypes : List ResourceType) (R : Nat → CardGenerator.CardRand)
    (h1 : 1 ≤ config.totalCards) (h2 : resourceTypes ≠ []) :
    CardGenerator.generateCards config resourceTypes R
      = (List.range config.totalCards).map (fun i =>
          CardGenerator.generateCardForTier (CardGenerator.cardTier config.totalCards i)
            i config resourceTypes (R i)) ∧
    (CardGenerator.generateCards config resourceTypes R).map (fun c => c.id)
      = List.range config.totalCards ∧
    (CardGenerator.generateCards config resourceTypes R).length = config.totalCards ∧
    (List.range config.totalCards).countP
        (fun i => CardGenerator.cardTier config.totalCards i == 0)
      = config.totalCards / 3 ∧
    (List.range config.totalCards).countP
        (fun i => CardGenerator.cardTier config.totalCards i == 1)
      = config.totalCards / 3 ∧
    (List.range config.totalCards).countP
        (fun i => CardGenerator.cardTier config.totalCards i == 2)
      = config.totalCards - 2 * (config.totalCards / 3) := by
  set N := config.totalCards with hNdef
  set cpt := N / 3 with hcptdef
  have h3le : 3 * cpt ≤ N := by omega
  have e1 : List.range' 0 cpt ++ List.range' cpt cpt = List.range' 0 (2 * cpt) := by
    have h := List.range'_append 0 cpt cpt 1
    simp only [Nat.zero_add, Nat.one_mul] at h
    rw [h]
    congr 1
    omega
  have e2 : List.range' 0 (2 * cpt) ++ List.range' (2 * cpt) cpt
      = List.range' 0 (3 * cpt) := by
    have h := List.range'_append 0 (2 * cpt) cpt 1
    simp only [Nat.zero_add, Nat.one_mul] at h
    rw [h]
    congr 1
    omega
  have e3 : List.range' 0 (3 * cpt) ++ List.range' (3 * cpt) (N - 3 * cpt)
      = List.range' 0 N := by
    have h := List.range'_append 0 (3 * cpt) (N - 3 * cpt) 1
    simp only [Nat.zero_add, Nat.one_mul] at h
    rw [h]
    congr 1
    omega
  have hrange : List.range N
      = ((List.range' 0 cpt ++ List.range' cpt cpt) ++ List.range' (2 * cpt) cpt)
          ++ List.range' (3 * cpt) (N - 3 * cpt) := by
    rw [List.range_eq_range', ← e3, ← e2, ← e1]
  have hct0 : ∀ j, j < cpt → CardGenerator.cardTier N j = 0 := by
    intro j hj
    rw [CardGenerator.cardTier, if_pos (by omega)]
  have hct1 : ∀ j, cpt ≤ j → j < 2 * cpt → CardGenerator.cardTier N j = 1 := by
    intro j hj1 hj2
    rw [CardGenerator.cardTier, if_neg (by omega), if_pos (by omega)]
  have hct2 : ∀ j, 2 * cpt ≤ j → CardGenerator.cardTier N j = 2 := by
    intro j hj
    rw [CardGenerator.cardTier, if_neg (by omega), if_neg (by omega)]
  have hblock : ∀ (t s len : Nat),
      (∀ j, s ≤ j → j < s + len → CardGenerator.cardTier N j = t) →
      (List.range' s len).map (fun j =>
          CardGenerator.generateCardForTier (CardGenerator.cardTier N j) j config
            resourceTypes (R j))
        = (List.range len).map (fun i =>
            CardGenerator.generateCardForTier t (s + i) config resourceTypes (R (s + i))) := by
    intro t s len hct
    rw [List.range'_eq_map_range, List.map_map]
    apply List.map_congr_left
    intro i hi
    have hilt : i < len := List.mem_range.mp hi
    simp only [Function.comp]
    rw [hct (s + i) (by omega) (by omega)]
  have hmain : CardGenerator.generateCards config resourceTypes R
      = (List.range N).map (fun i =>
          CardGenerator.generateCardForTier (CardGenerator.cardTier N i) i config
            resourceTypes (R i)) := by
    rw [CardGenerator.generateCards]
    rw [hrange]
    rw [List.map_append, List.map_append, List.map_append]
    rw [hblock 0 0 cpt (fun j hj1 hj2 => hct0 j (by omega))]
    rw [hblock 1 cpt cpt (fun j hj1 hj2 => hct1 j hj1 (by omega))]
    rw [hblock 2 (2 * cpt) cpt (fun j hj1 hj2 => hct2 j hj1)]
    have hB : (List.range' (3 * cpt) (N - 3 * cpt)).map (fun j =>
        CardGenerator.generateCardForTier (CardGenerator.cardTier N j) j config
          resourceTypes (R j))
        = (List.range' (3 * cpt) (N - 3 * cpt)).map (fun i =>
            CardGenerator.generateCardForTier 2 i config resourceTypes (R i)) := by
      apply List.map_congr_left
      intro j hj
      have hj1 : 3 * cpt ≤ j := (List.mem_range'_1.mp hj).1
      rw [hct2 j (by omega)]
    rw [hB]
    have hflat : (List.range 3).flatMap (fun tier =>
        (List.range cpt).map (fun i =>
          CardGenerator.generateCardForTier tier (tier * cpt + i) config resourceTypes
            (R (tier * cpt + i))))
        = ((List.range cpt).map (fun i =>
            CardGenerator.generateCardForTier 0 (0 * cpt + i) config resourceTypes
              (R (0 * cpt + i)))
          ++ ((List.range cpt).map (fun i =>
            CardGenerator.generateCardForTier 1 (1 * cpt + i) config resourceTypes
              (R (1 * cpt + i)))
          ++ (List.range cpt).map (fun i =>
            CardGenerator.generateCardForTier 2 (2 * cpt + i) config resourceTypes
              (R (2 * cpt + i))))) := by
      have hr3 : List.range 3 = [0, 1, 2] := rfl
      rw [hr3]
      simp [List.flatMap_cons]
    rw [hflat]
    have hz : ∀ i : Nat, 0 * cpt + i = 0 + i := by intro i; omega
    simp only [Nat.zero_mul, Nat.zero_add, Nat.one_mul, List.append_assoc]
  refine ⟨hmain, ?_, ?_, ?_, ?_, ?_⟩
  · rw [hmain, List.map_map]
    have hid : ∀ i ∈ List.range N,
        ((fun c => GameCard.id c) ∘ fun i =>
          CardGenerator.generateCardForTier (CardGenerator.cardTier N i) i config
            resourceTypes (R i)) i = id i := by
      intro i hi
      rfl
    rw [List.map_congr_left hid, List.map_id]
  · rw [hmain, List.length_map, List.length_range]
  · rw [hrange]
    rw [List.countP_append, List.countP_append, List.countP_append]
    have c1 : (List.range' 0 cpt).countP (fun i => CardGenerator.cardTier N i == 0)
        = cpt := by
      rw [List.countP_eq_length.mpr]
      · exact List.length_range' _ _ _
      · intro a ha
        have := (List.mem_range'_1.mp ha).2
        simp [hct0 a (by omega)]
    have c2 : (List.range' cpt cpt).countP (fun i => CardGenerator.cardTier N i == 0)
        = 0 := by
      rw [List.countP_eq_zero.mpr]
      intro a ha
      obtain ⟨ha1, ha2⟩ := List.mem_range'_1.mp ha
      simp [hct1 a ha1 (by omega)]
    have c3 : (List.range' (2 * cpt) cpt).countP (fun i => CardGenerator.cardTier N i == 0)
        = 0 := by
      rw [List.countP_eq_zero.mpr]
      intro a ha
      obtain ⟨ha1, ha2⟩ := List.mem_range'_1.mp ha
      simp [hct2 a ha1]
    have c4 : (List.range' (3 * cpt) (N - 3 * cpt)).countP
        (fun i => CardGenerator.cardTier N i == 0) = 0 := by
      rw [List.countP_eq_zero.mpr]
      intro a ha
      obtain ⟨ha1, ha2⟩ := List.mem_range'_1.mp ha
      simp [hct2 a (by omega)]
    rw [c1, c2, c3, c4]
    omega
  · rw [hrange]
    rw [List.countP_append, List.countP_append, List.countP_append]
    have c1 : (List.range' 0 cpt).countP (fun i => CardGenerator.cardTier N i == 1)
        = 0 := by
      rw [List.countP_eq_zero.mpr]
      intro a ha
      have := (List.mem_range'_1.mp ha).2
      simp [hct0 a (by omega)]
    have c2 : (List.range' cpt cpt).countP (fun i => CardGenerator.cardTier N i == 1)
        = cpt := by
      rw [List.countP_eq_length.mpr]
      · exact List.length_range' _ _ _
      · intro a ha
        obtain ⟨ha1, ha2⟩ := List.mem_range'_1.mp ha
        simp [hct1 a ha1 (by omega)]
    have c3 : (List.range' (2 * cpt) cpt).countP (fun i => CardGenerator.cardTier N i == 1)
        = 0 := by
      rw [List.countP_eq_zero.mpr]
      intro a ha
      obtain ⟨ha1, ha2⟩ := List.mem_range'_1.mp ha
      simp [hct2 a ha1]
    have c4 : (List.range' (3 * cpt) (N - 3 * cpt)).countP
        (fun i => CardGenerator.cardTier N i == 1) = 0 := by
      rw [List.countP_eq_zero.mpr]
      intro a ha
      obtain ⟨ha1, ha2⟩ := List.mem_range'_1.mp ha
      simp [hct2 a (by omega)]
    rw [c1, c2, c3, c4]
    omega
  · rw [hrange]
    rw [List.countP_append, List.countP_append, List.countP_append]
    have c1 : (List.range' 0 cpt).countP (fun i => CardGenerator.cardTier N i == 2)
        = 0 := by
      rw [List.countP_eq_zero.mpr]
      intro a ha
      have := (List.mem_range'_1.mp ha).2
      simp [hct0 a (by omega)]
    have c2 : (List.range' cpt cpt).countP (fun i => CardGenerator.cardTier N i == 2)
        = 0 := by
      rw [List.countP_eq_zero.mpr]
      intro a ha
      obtain ⟨ha1, ha2⟩ := List.mem_range'_1.mp ha
      simp [hct1 a ha1 (by omega)]
    have c3 : (List.range' (2 * cpt) cpt).countP (fun i => CardGenerator.cardTier N i == 2)
        = cpt := by
      rw [List.countP_eq_length.mpr]
      · exact List.length_range' _ _ _
      · intro a ha
        obtain ⟨ha1, ha2⟩ := List.mem_range'_1.mp ha
        simp [hct2 a ha1]
    have c4 : (List.range' (3 * cpt) (N - 3 * cpt)).countP
        (fun i => CardGenerator.cardTier N i == 2) = N - 3 * cpt := by
      rw [List.countP_eq_length.mpr]
      · exact List.length_range' _ _ _
      · intro a ha
        obtain ⟨ha1, ha2⟩ := List.mem_range'_1.mp ha
        simp [hct2 a (by omega)]
    rw [c1, c2, c3, c4]
    omega

/-- C8 witness: the card-count/ids theorem applied at a 4-card config
with a single active resource type. -/
theorem generateCards_count_ids_tiers_witness :
    1 ≤ Fixtures.cfgFourCards.totalCards ∧
    ([ResourceType.wood] : List ResourceType) ≠ [] ∧
    (CardGenerator.generateCards Fixtures.cfgFourCards [ResourceType.wood]
        (fun _ => Fixtures.constCardRand)).map (fun c => c.id)
      = List.range Fixtures.cfgFourCards.totalCards ∧
    (CardGenerator.generateCards Fixtures.cfgFourCards [ResourceType.wood]
        (fun _ => Fixtures.constCardRand)).length = Fixtures.cfgFourCards.totalCards :=
  ⟨by decide, by decide,
   (generateCards_count_ids_tiers Fixtures.cfgFourCards [ResourceType.wood]
      (fun _ => Fixtures.constCardRand) (by decide) (by decide)).2.1,
   (generateCards_count_ids_tiers Fixtures.cfgFourCards [ResourceType.wood]
      (fun _ => Fixtures.constCardRand) (by decide) (by decide)).2.2.1⟩
